import Mathlib

/-!
Verification of the contributor-analyze core against its specification.

The development shallowly embeds the two core components of the repository:

* the resilient batch/retry framework (`BatchProcessor.processBatches`,
  `retryWithBackoff`, `parseRetryDelayMs`, `ensureCooldown`), embedded as pure
  state-passing functions in which the asynchronous effects (timeouts, the
  random jitter, the wall clock) are explicit oracle parameters; and
* the Bayesian ability estimator (`sigmoid`, `logLikelihood`, `logPrior`,
  `logPosterior`, `estimateAbilityByGridSearchMAP`,
  `calculateBayesianConfidenceInterval`), embedded over the real numbers,
  with JavaScript's `-Infinity` represented by `⊥ : EReal`.
-/

namespace ContributorAnalyze

/-!
## Batch processor (`BatchProcessor` in the source)

One item's processing — `processItemWithTimeout` in the source — either
fulfills with a non-null output, fulfills with `null` (the processor returned
`null`, or `retryWithBackoff` threw and the inner `catch` converted the error
to `null`), or loses the race against the item timeout (again converted to
`null` by the outer `catch`).  The outcome of each item's run is an oracle
parameter; the claims quantify over it.
-/

inductive ItemOutcome (TOutput : Type) where
  | ok (v : TOutput)
  | nullResult
  | errored
  | timedOut
  deriving DecidableEq

/-- `processItemWithTimeout`: fulfills with the value on success and with
`null` (here `none`) when the processor returned `null`, threw, or timed out —
the function itself never rejects (both `catch` branches return `null`). -/
def processItemWithTimeout {TInput TOutput : Type}
    (outcome : TInput → ItemOutcome TOutput) (item : TInput) : Option TOutput :=
  match outcome item with
  | .ok v => some v
  | .nullResult => none
  | .errored => none
  | .timedOut => none

/-- The batch partition produced by `items.slice(i, i + batchSize)` as `i`
steps through `0, batchSize, 2*batchSize, …` (the loop diverges for
`batchSize = 0`, which the embedding maps to `[]`; all theorems assume
`0 < batchSize`). -/
def chunks {α : Type} (bs : Nat) : List α → List (List α)
  | [] => []
  | x :: xs =>
    if 0 < bs then
      ((x :: xs).take bs) :: chunks bs ((x :: xs).drop bs)
    else []
  termination_by l => l.length
  decreasing_by simp_all [List.length_drop]

/-- The sequential-mode loop body of `processBatches`: slice off one batch,
race `Promise.allSettled` of its items against the batch timeout
(`batchTimesOut bn = true` means the timeout rejected first, landing in the
`catch` that contributes zero results and continues), extract the fulfilled
non-null values, append them to the accumulator `allResults`, and continue
with the rest. -/
def processBatchesGo {TInput TOutput : Type} (bs : Nat) (batchTimesOut : Nat → Bool)
    (outcome : TInput → ItemOutcome TOutput) :
    List TInput → Nat → List TOutput → List TOutput
  | [], _, acc => acc
  | x :: xs, bn, acc =>
    if 0 < bs then
      let batch := (x :: xs).take bs
      let successfulResults :=
        if batchTimesOut bn then [] else batch.filterMap (processItemWithTimeout outcome)
      processBatchesGo bs batchTimesOut outcome ((x :: xs).drop bs) (bn + 1)
        (acc ++ successfulResults)
    else acc
  termination_by l => l.length
  decreasing_by simp_all [List.length_drop]

/-- `BatchProcessor.processBatches` (sequential mode, `concurrentBatches = 1`):
batch numbers count from 0 here (the source logs them from 1). -/
def processBatches {TInput TOutput : Type} (bs : Nat) (batchTimesOut : Nat → Bool)
    (outcome : TInput → ItemOutcome TOutput) (items : List TInput) : List TOutput :=
  processBatchesGo bs batchTimesOut outcome items 0 []

lemma chunks_nil {α : Type} (bs : Nat) : chunks bs ([] : List α) = [] := by
  rw [chunks.eq_def]

lemma chunks_cons {α : Type} (bs : Nat) (hbs : 0 < bs) (x : α) (xs : List α) :
    chunks bs (x :: xs) = ((x :: xs).take bs) :: chunks bs ((x :: xs).drop bs) := by
  rw [chunks.eq_def]
  simp [hbs]

lemma chunks_flatten {α : Type} (bs : Nat) (hbs : 0 < bs) (l : List α) :
    (chunks bs l).flatten = l := by
  induction l using chunks.induct bs with
  | case1 => simp [chunks_nil]
  | case2 x xs h ih => rw [chunks_cons bs hbs, List.flatten_cons, ih, List.take_append_drop]
  | case3 x xs h => exact absurd hbs h

lemma processBatchesGo_nil {TInput TOutput : Type} (bs : Nat) (bto : Nat → Bool)
    (oc : TInput → ItemOutcome TOutput) (bn : Nat) (acc : List TOutput) :
    processBatchesGo bs bto oc [] bn acc = acc := by
  rw [processBatchesGo.eq_def]

lemma processBatchesGo_cons {TInput TOutput : Type} (bs : Nat) (hbs : 0 < bs)
    (bto : Nat → Bool) (oc : TInput → ItemOutcome TOutput) (x : TInput) (xs : List TInput)
    (bn : Nat) (acc : List TOutput) :
    processBatchesGo bs bto oc (x :: xs) bn acc =
      processBatchesGo bs bto oc ((x :: xs).drop bs) (bn + 1)
        (acc ++ (if bto bn then []
          else ((x :: xs).take bs).filterMap (processItemWithTimeout oc))) := by
  rw [processBatchesGo.eq_def]
  simp [hbs]

lemma processBatchesGo_spec {TInput TOutput : Type} (bs : Nat) (hbs : 0 < bs)
    (bto : Nat → Bool) (oc : TInput → ItemOutcome TOutput) (l : List TInput) :
    ∀ (bn : Nat) (acc : List TOutput),
    processBatchesGo bs bto oc l bn acc =
      acc ++ ((chunks bs l).enumFrom bn |>.map fun p =>
        if bto p.1 then [] else p.2.filterMap (processItemWithTimeout oc)).flatten := by
  induction l using chunks.induct bs with
  | case1 => intro bn acc; simp [processBatchesGo_nil, chunks_nil]
  | case2 x xs h ih =>
    intro bn acc
    rw [processBatchesGo_cons bs hbs, chunks_cons bs hbs, List.enumFrom_cons, List.map_cons,
      List.flatten_cons, ih]
    simp [List.append_assoc]
  | case3 x xs h => exact absurd hbs h

/-- C1.  With `0 < batchSize`, `processBatches` is, batch by batch and in input
order, the concatenation of each batch's fulfilled non-null outputs (a batch
whose timeout fires contributes zero results and aborts nothing else); in
particular, when no batch times out, the result is exactly
`items.filterMap`, i.e. the non-null successful outputs of the processor in the
order of the corresponding input items, with failing/null/timed-out items
omitted.  The embedding is a total function, so no input makes
`processBatches` itself throw. -/
theorem c1_processBatches_successes {TInput TOutput : Type} (bs : Nat)
    (batchTimesOut : Nat → Bool) (outcome : TInput → ItemOutcome TOutput)
    (items : List TInput) (hbs : 0 < bs) :
    processBatches bs batchTimesOut outcome items =
      ((chunks bs items).enum.map fun p =>
        if batchTimesOut p.1 then []
        else p.2.filterMap (processItemWithTimeout outcome)).flatten
    ∧ ((∀ n, batchTimesOut n = false) →
        processBatches bs batchTimesOut outcome items =
          items.filterMap (processItemWithTimeout outcome)) := by
  constructor
  · rw [processBatches, processBatchesGo_spec bs hbs, List.nil_append, List.enum]
  · intro hno
    rw [processBatches, processBatchesGo_spec bs hbs, List.nil_append]
    simp only [hno, Bool.false_eq_true, if_false]
    have hmap : ((chunks bs items).enumFrom 0 |>.map fun p =>
        p.2.filterMap (processItemWithTimeout outcome)) =
        (chunks bs items).map (fun b => b.filterMap (processItemWithTimeout outcome)) := by
      rw [show ((fun p : Nat × List TInput => p.2.filterMap (processItemWithTimeout outcome))) =
        (fun b : List TInput => b.filterMap (processItemWithTimeout outcome)) ∘ Prod.snd from rfl,
        ← List.map_map, List.enumFrom_map_snd]
    rw [hmap, ← List.filterMap_flatten, chunks_flatten bs hbs items]

/-- Witness for C1 at a concrete input: batch size 2, no batch timeouts, five
items of which items 1 and 3 fail/return null/time out. -/
theorem c1_processBatches_successes_witness :
    0 < 2 ∧
    (processBatches 2 (fun _ => false)
        (fun n : Nat =>
          if n = 1 then ItemOutcome.errored
          else if n = 3 then ItemOutcome.nullResult
          else if n = 4 then ItemOutcome.timedOut
          else ItemOutcome.ok n)
        [0, 1, 2, 3, 4] =
      ((chunks 2 [0, 1, 2, 3, 4]).enum.map fun p =>
        if (fun _ : Nat => false) p.1 then []
        else p.2.filterMap (processItemWithTimeout (fun n : Nat =>
          if n = 1 then ItemOutcome.errored
          else if n = 3 then ItemOutcome.nullResult
          else if n = 4 then ItemOutcome.timedOut
          else ItemOutcome.ok n))).flatten
    ∧ ((∀ n, (fun _ : Nat => false) n = false) →
        processBatches 2 (fun _ => false)
          (fun n : Nat =>
            if n = 1 then ItemOutcome.errored
            else if n = 3 then ItemOutcome.nullResult
            else if n = 4 then ItemOutcome.timedOut
            else ItemOutcome.ok n)
          [0, 1, 2, 3, 4] =
        [0, 1, 2, 3, 4].filterMap (processItemWithTimeout (fun n : Nat =>
          if n = 1 then ItemOutcome.errored
          else if n = 3 then ItemOutcome.nullResult
          else if n = 4 then ItemOutcome.timedOut
          else ItemOutcome.ok n)))) :=
  ⟨by decide, c1_processBatches_successes 2 _ _ _ (by decide)⟩

/-!
## Retry policy (`retryWithBackoff`, `parseRetryDelayMs`, `ensureCooldown`)

Errors carry a numeric `status` (absent fields model `undefined`) and a
message string (`e?.message || ''` always yields a string).  The wall clock is
idealized: operations and classification take zero time, `setTimeout`-based
sleeps advance the clock by exactly their delay, so the `Date.now()` read when
the cooldown is stored coincides with the post-`ensureCooldown` time of the
failing attempt.  Each attempt logs the pair (time of the call, value of the
shared cooldown timestamp at that moment).
-/

/-- Digits of a decimal numeral, as consumed by `parseInt(·, 10)` on a
`\d+` capture. -/
def digitsToNat (ds : List Char) : Nat :=
  ds.foldl (fun a c => a * 10 + (c.toNat - 48)) 0

/-- Greedily split a leading run of digits (the `\d+` capture). -/
def takeDigits : List Char → List Char × List Char
  | [] => ([], [])
  | c :: cs =>
    if c.isDigit then
      let p := takeDigits cs
      (c :: p.1, p.2)
    else ([], c :: cs)

/-- Case-insensitive literal match of `pat` (given in lowercase) at the head;
returns the rest on success. -/
def stripPrefixCI (pat : List Char) (cs : List Char) : Option (List Char) :=
  match pat, cs with
  | [], rest => some rest
  | _ :: _, [] => none
  | p :: ps, c :: cs => if c.toLower = p then stripPrefixCI ps cs else none

/-- Consume one optional occurrence of `q` (the regex `"?`). -/
def stripOpt (q : Char) : List Char → List Char
  | [] => []
  | c :: cs => if c = q then cs else c :: cs

/-- Match `/retryDelay"?:"?(\d+)(s|sec)/i` anchored at the head of the list;
`(s|sec)` succeeds exactly when the character after the digits is an `s`. -/
def matchRetryDelayAt (cs : List Char) : Option Nat :=
  match stripPrefixCI (("retrydelay").toList) cs with
  | none => none
  | some r1 =>
    match stripOpt '"' r1 with
    | ':' :: r3 =>
      let r4 := stripOpt '"' r3
      let p := takeDigits r4
      match p.1, p.2 with
      | [], _ => none
      | _ :: _, c :: _ => if c.toLower = 's' then some (digitsToNat p.1) else none
      | _ :: _, [] => none
    | _ => none

/-- Leftmost match of the retry-delay regex (the scan of `String.match`). -/
def scanRetryDelay : List Char → Option Nat
  | [] => none
  | c :: cs =>
    match matchRetryDelayAt (c :: cs) with
    | some n => some n
    | none => scanRetryDelay cs

/-- `parseRetryDelayMs`: `msg.match(/retryDelay"?:"?(\d+)(s|sec)/i)`, the
captured seconds converted to milliseconds (`parseInt` of a `\d+` capture is
never `NaN`); `none` models the `null` returns (including the falsy empty
message). -/
def parseRetryDelayMs (msg : String) : Option Nat :=
  match scanRetryDelay msg.data with
  | some sec => some (sec * 1000)
  | none => none

/-- Match `/\[(\d{3}) /` anchored at the head: a literal `[`, exactly three
digits, then a space. -/
def matchBracketStatusAt : List Char → Option Nat
  | '[' :: a :: b :: c :: sp :: _ =>
    if a.isDigit && b.isDigit && c.isDigit && sp = ' ' then
      some (digitsToNat [a, b, c])
    else none
  | _ => none

/-- Leftmost match of `/\[(\d{3}) /` (the `msg.match(...)?.[1]` fallback that
recovers a status code embedded in the message). -/
def scanBracketStatus : List Char → Option Nat
  | [] => none
  | c :: cs =>
    match matchBracketStatusAt (c :: cs) with
    | some n => some n
    | none => scanBracketStatus cs

/-- `msg.includes(pat)` on character lists. -/
def containsSeq (pat : List Char) : List Char → Bool
  | [] => decide (pat = [])
  | c :: cs => pat.isPrefixOf (c :: cs) || containsSeq pat cs

/-- An error value as inspected by `retryWithBackoff`: `e?.status` (a number
or absent) and `e?.message || ''`. -/
structure JsError where
  status : Option Nat
  msg : String
  deriving DecidableEq

/-- `const status = e?.status || msg.match(/\[(\d{3}) /)?.[1]` — a falsy
`e.status` (absent or `0`) falls back to the bracket-status regex. -/
def effStatus (e : JsError) : Option Nat :=
  match e.status with
  | some s => if s = 0 then scanBracketStatus e.msg.data else some s
  | none => scanBracketStatus e.msg.data

/-- `status == 429 || msg.includes('[429')` (JS loose equality makes the
regex's string capture compare equal to the number 429). -/
def isRate (e : JsError) : Bool :=
  effStatus e == some 429 || containsSeq (("[429").toList) e.msg.data

/-- `[500, 503].includes(Number(status))` (`Number(undefined)` is `NaN`,
which is in neither). -/
def isServer (e : JsError) : Bool :=
  match effStatus e with
  | some s => s == 500 || s == 503
  | none => false

/-- `(v || default)` on the result of `parseRetryDelayMs`: both `null` and a
parsed `0` are falsy in JavaScript. -/
def jsOrDefault (v : Option Nat) (d : Nat) : Nat :=
  match v with
  | some x => if x = 0 then d else x
  | none => d

/-- The shared mutable state of the retry machinery: the idealized clock, the
module-level `last429CooldownUntil`, and the log of attempts as pairs
(time of the `operation()` call, cooldown timestamp at that moment). -/
structure RetrySt where
  now : Nat
  cooldownUntil : Nat
  calls : List (Nat × Nat)
  deriving DecidableEq

inductive RetryResult (T : Type) where
  | success (v : T) (st : RetrySt)
  | thrown (e : JsError) (st : RetrySt)
  | maxRetriesExceeded (st : RetrySt)
  deriving DecidableEq

def RetryResult.st {T : Type} : RetryResult T → RetrySt
  | .success _ st => st
  | .thrown _ st => st
  | .maxRetriesExceeded st => st

/-- The `for (let i = 0; i < maxRetries; i++)` loop of `retryWithBackoff`,
with the remaining iteration count as the (structural) first numeric argument
and the attempt counter `i` as the second; `rem = 0` is loop exit, reaching
`throw new Error('Max retries exceeded')`.  Each iteration awaits
`ensureCooldown()` (advancing the clock to the cooldown timestamp if it lies
in the future), calls `operation()` — result supplied by the oracle `op` —
and classifies failures exactly as the source does.  `isLast` (`rem = 1`,
i.e. `i = maxRetries - 1`) mirrors `i === maxRetries - 1`. -/
def retryGo {T : Type} (op : Nat → Except JsError T) (jitterRate jitterServer : Nat → Nat)
    (baseDelay : Nat) : Nat → Nat → RetrySt → RetryResult T
  | 0, _, st => .maxRetriesExceeded st
  | rem + 1, i, st =>
    let n1 := max st.now st.cooldownUntil
    let calls1 := st.calls ++ [(n1, st.cooldownUntil)]
    match op i with
    | .ok v => .success v ⟨n1, st.cooldownUntil, calls1⟩
    | .error e =>
      if isRate e then
        let delay := jsOrDefault (parseRetryDelayMs e.msg) 30000 + jitterRate i
        if rem = 0 then .thrown e ⟨n1, n1 + delay, calls1⟩
        else retryGo op jitterRate jitterServer baseDelay rem (i + 1)
          ⟨n1 + delay, n1 + delay, calls1⟩
      else if !isServer e || rem = 0 then .thrown e ⟨n1, st.cooldownUntil, calls1⟩
      else
        let delay := baseDelay * 2 ^ i + jitterServer i
        retryGo op jitterRate jitterServer baseDelay rem (i + 1)
          ⟨n1 + delay, st.cooldownUntil, calls1⟩

/-- `retryWithBackoff(operation, maxRetries, baseDelay)` started on shared
state `st`. -/
def retryWithBackoff {T : Type} (op : Nat → Except JsError T)
    (jitterRate jitterServer : Nat → Nat) (maxRetries baseDelay : Nat)
    (st : RetrySt) : RetryResult T :=
  retryGo op jitterRate jitterServer baseDelay maxRetries 0 st

lemma retryGo_calls_cooldown {T : Type} (op : Nat → Except JsError T)
    (jR jS : Nat → Nat) (bd : Nat) :
    ∀ (rem i : Nat) (st : RetrySt) (p : Nat × Nat),
      p ∈ (retryGo op jR jS bd rem i st).st.calls → p ∈ st.calls ∨ p.2 ≤ p.1 := by
  intro rem
  induction rem with
  | zero => intro i st p h; exact Or.inl h
  | succ rem ih =>
    intro i st p h
    have hentry : ∀ q : Nat × Nat,
        q ∈ st.calls ++ [(max st.now st.cooldownUntil, st.cooldownUntil)] →
        q ∈ st.calls ∨ q.2 ≤ q.1 := by
      intro q hq
      rcases List.mem_append.mp hq with hq | hq
      · exact Or.inl hq
      · right
        rcases List.mem_singleton.mp hq with rfl
        exact le_max_right _ _
    rw [retryGo] at h
    rcases hop : op i with e | v <;> rw [hop] at h
    · by_cases hrate : isRate e
      · simp only [hrate, if_true] at h
        by_cases hrem : rem = 0
        · simp only [hrem, if_true] at h
          exact hentry p h
        · simp only [hrem, if_false] at h
          rcases ih _ _ p h with hin | hle
          · exact hentry p hin
          · exact Or.inr hle
      · simp only [hrate, if_false, Bool.false_eq_true] at h
        by_cases hsrv : (!isServer e || decide (rem = 0)) = true
        · rw [if_pos hsrv] at h
          exact hentry p h
        · rw [if_neg hsrv] at h
          rcases ih _ _ p h with hin | hle
          · exact hentry p hin
          · exact Or.inr hle
    · exact hentry p h

/-- C5 (amended).  On a rate-limit signal the computed delay is the
`retryDelay` hint parsed from the message in milliseconds — except that both
an unparsable hint and a parsed `0` fall back to 30000 ms (JavaScript `||`
treats `0` as falsy) — plus jitter in `[0, 1500)`; the shared cooldown
timestamp is set to `now + delay` (also on the last allowed attempt, which
then re-throws the error); a non-last attempt sleeps that same delay and
retries; and every attempt's call happens at a time no earlier than the
cooldown timestamp it observed. -/
theorem c5_rate_limit_cooldown {T : Type} (op : Nat → Except JsError T)
    (jR jS : Nat → Nat) (bd i : Nat) (st : RetrySt) (e : JsError) (rem : Nat)
    (h1 : op i = .error e) (h2 : isRate e = true) (hj : jR i < 1500) :
    (retryGo op jR jS bd (rem + 2) i st =
      retryGo op jR jS bd (rem + 1) (i + 1)
        ⟨max st.now st.cooldownUntil + (jsOrDefault (parseRetryDelayMs e.msg) 30000 + jR i),
         max st.now st.cooldownUntil + (jsOrDefault (parseRetryDelayMs e.msg) 30000 + jR i),
         st.calls ++ [(max st.now st.cooldownUntil, st.cooldownUntil)]⟩)
    ∧ (retryGo op jR jS bd 1 i st =
        .thrown e
          ⟨max st.now st.cooldownUntil,
           max st.now st.cooldownUntil + (jsOrDefault (parseRetryDelayMs e.msg) 30000 + jR i),
           st.calls ++ [(max st.now st.cooldownUntil, st.cooldownUntil)]⟩)
    ∧ (∀ (rem' i' : Nat) (st' : RetrySt) (p : Nat × Nat),
        p ∈ (retryGo op jR jS bd rem' i' st').st.calls → p ∈ st'.calls ∨ p.2 ≤ p.1) := by
  refine ⟨?_, ?_, retryGo_calls_cooldown op jR jS bd⟩
  · conv_lhs => rw [retryGo]
    rw [h1]
    simp [h2]
  · conv_lhs => rw [retryGo]
    rw [h1]
    simp [h2]

/-- Witness for C5 at a concrete input: attempt 0 hits a 429 with a `7s`
retry hint and jitter 100, attempt 1 succeeds. -/
theorem c5_rate_limit_cooldown_witness :
    ((fun j => if j = 0
        then Except.error (⟨some 429, "retryDelay\":\"7s\""⟩ : JsError)
        else Except.ok (5 : Nat)) 0 =
      Except.error (⟨some 429, "retryDelay\":\"7s\""⟩ : JsError))
    ∧ isRate (⟨some 429, "retryDelay\":\"7s\""⟩ : JsError) = true
    ∧ (fun _ : Nat => 100) 0 < 1500
    ∧ (retryGo (fun j => if j = 0
          then Except.error (⟨some 429, "retryDelay\":\"7s\""⟩ : JsError)
          else Except.ok (5 : Nat)) (fun _ => 100) (fun _ => 0) 1200 (2 + 2) 0 ⟨10, 0, []⟩ =
        retryGo (fun j => if j = 0
          then Except.error (⟨some 429, "retryDelay\":\"7s\""⟩ : JsError)
          else Except.ok (5 : Nat)) (fun _ => 100) (fun _ => 0) 1200 (2 + 1) (0 + 1)
          ⟨max 10 0 + (jsOrDefault (parseRetryDelayMs (⟨some 429,
              "retryDelay\":\"7s\""⟩ : JsError).msg) 30000 + (fun _ : Nat => 100) 0),
           max 10 0 + (jsOrDefault (parseRetryDelayMs (⟨some 429,
              "retryDelay\":\"7s\""⟩ : JsError).msg) 30000 + (fun _ : Nat => 100) 0),
           ([] : List (Nat × Nat)) ++ [(max 10 0, 0)]⟩) := by
  refine ⟨rfl, by decide, by decide, ?_⟩
  exact (c5_rate_limit_cooldown _ _ _ 1200 0 ⟨10, 0, []⟩ _ 2 rfl (by decide) (by decide)).1

/-- C5 counterexample: with the message
`retryDelay":"0s"` the hint parses to 0 ms, yet the delay used (observable as
the stored cooldown timestamp) is 30000 ms + jitter, not the parsed 0 ms +
jitter: below, jitter is 0 everywhere and the cooldown after attempt 0 is
30000, not `max 0 0 + (0 + 0) = 0`. -/
theorem c5_counterexample :
    parseRetryDelayMs ("retryDelay\":\"0s\"") = some 0
    ∧ (retryWithBackoff
        (fun j => if j = 0
          then Except.error (⟨some 429, "retryDelay\":\"0s\""⟩ : JsError)
          else Except.ok (1 : Nat))
        (fun _ => 0) (fun _ => 0) 2 1200 ⟨0, 0, []⟩ =
       .success 1 ⟨30000, 30000, [(0, 0), (30000, 30000)]⟩)
    ∧ (30000 : Nat) ≠ max 0 0 + (0 + 0) := by
  refine ⟨by decide, by decide, by decide⟩

/-- C6.  An error that is neither a rate-limit signal nor a transient
500/503 server error is re-thrown immediately after the failing attempt —
whatever retry budget remains, the attempt log grows by exactly that one
attempt; a 500/503 on a non-last attempt sleeps
`baseDelay * 2 ^ attempt + jitter` (jitter in `[0, 400)`) and retries; a
500/503 on the last attempt re-throws. -/
theorem c6_fatal_and_server_backoff {T : Type} (op : Nat → Except JsError T)
    (jR jS : Nat → Nat) (bd i : Nat) (st : RetrySt) (e : JsError) (rem : Nat)
    (h1 : op i = .error e) (hr : isRate e = false) :
    (isServer e = false →
      retryGo op jR jS bd (rem + 1) i st =
        .thrown e ⟨max st.now st.cooldownUntil, st.cooldownUntil,
          st.calls ++ [(max st.now st.cooldownUntil, st.cooldownUntil)]⟩)
    ∧ (isServer e = true → jS i < 400 →
        retryGo op jR jS bd (rem + 2) i st =
          retryGo op jR jS bd (rem + 1) (i + 1)
            ⟨max st.now st.cooldownUntil + (bd * 2 ^ i + jS i), st.cooldownUntil,
             st.calls ++ [(max st.now st.cooldownUntil, st.cooldownUntil)]⟩)
    ∧ (isServer e = true →
        retryGo op jR jS bd 1 i st =
          .thrown e ⟨max st.now st.cooldownUntil, st.cooldownUntil,
            st.calls ++ [(max st.now st.cooldownUntil, st.cooldownUntil)]⟩) := by
  refine ⟨fun hs => ?_, fun hs _hj => ?_, fun hs => ?_⟩
  · conv_lhs => rw [retryGo]
    rw [h1]
    simp [hr, hs]
  · conv_lhs => rw [retryGo]
    rw [h1]
    simp [hr, hs]
  · conv_lhs => rw [retryGo]
    rw [h1]
    simp [hr, hs]

/-- Witness for C6 at concrete inputs: a 404 (fatal) error on attempt 0. -/
theorem c6_fatal_and_server_backoff_witness :
    ((fun _ : Nat => Except.error (⟨some 404, "nope"⟩ : JsError) (α := Nat)) 0 =
      Except.error (⟨some 404, "nope"⟩ : JsError))
    ∧ isRate (⟨some 404, "nope"⟩ : JsError) = false
    ∧ (isServer (⟨some 404, "nope"⟩ : JsError) = false →
        retryGo (fun _ : Nat => Except.error (⟨some 404, "nope"⟩ : JsError) (α := Nat))
          (fun _ => 0) (fun _ => 0) 1200 (3 + 1) 0 ⟨5, 9, []⟩ =
        .thrown ⟨some 404, "nope"⟩ ⟨max 5 9, 9, [] ++ [(max 5 9, 9)]⟩) := by
  refine ⟨rfl, by decide, ?_⟩
  exact (c6_fatal_and_server_backoff _ (fun _ => 0) (fun _ => 0) 1200 0 ⟨5, 9, []⟩ _ 3
    rfl (by decide)).1

/-- C7 counterexample: with `maxRetries = 2` and an operation that fails with
a 429 on every attempt, both allowed attempts run (two entries in the call
log) and the final outcome is a re-throw of the attempt's own error — not the
`Max retries exceeded` failure. -/
theorem c7_counterexample :
    retryWithBackoff (fun _ : Nat => Except.error (⟨some 429, ""⟩ : JsError) (α := Nat))
      (fun _ => 0) (fun _ => 0) 2 1200 ⟨0, 0, []⟩ =
    .thrown ⟨some 429, ""⟩ ⟨30000, 60000, [(0, 0), (30000, 30000)]⟩ := by
  decide

/-- C7 (amended).  The `Max retries exceeded` error is raised exactly when
the loop body never runs, i.e. `maxRetries ≤ 0`; when `maxRetries ≥ 1` and
every attempt fails, the loop instead re-throws the error of the attempt on
which it stopped (on the last attempt every failure re-throws), so the final
failure is one of the operation's own errors. -/
theorem c7_max_retries_exhaustion {T : Type} (op : Nat → Except JsError T)
    (jR jS : Nat → Nat) (bd : Nat) (st : RetrySt) :
    (retryWithBackoff op jR jS 0 bd st = .maxRetriesExceeded st)
    ∧ (∀ (rem i : Nat) (st' : RetrySt), 0 < rem → (∀ j, ∃ e, op j = .error e) →
        ∃ e : JsError, (∃ j, op j = .error e) ∧
          retryGo op jR jS bd rem i st' =
            .thrown e (retryGo op jR jS bd rem i st').st) := by
  constructor
  · rfl
  · intro rem
    induction rem with
    | zero => intro i st' h; exact absurd h (by decide)
    | succ rem ih =>
      intro i st' _ hfail
      rcases hfail i with ⟨e, he⟩
      rcases Nat.eq_zero_or_pos rem with hrem | hrem
      · subst hrem
        rw [retryGo, he]
        by_cases hrate : isRate e
        · exact ⟨e, ⟨i, he⟩, by simp [hrate, RetryResult.st]⟩
        · exact ⟨e, ⟨i, he⟩, by simp [hrate, RetryResult.st]⟩
      · rw [retryGo, he]
        by_cases hrate : isRate e
        · have hrem0 : ¬ rem = 0 := Nat.pos_iff_ne_zero.mp hrem
          simp only [hrate, if_true, hrem0, if_false]
          exact ih _ _ hrem hfail
        · by_cases hsrv : isServer e
          · have hrem0 : ¬ rem = 0 := Nat.pos_iff_ne_zero.mp hrem
            have hc : (!isServer e || decide (rem = 0)) = false := by simp [hsrv, hrem0]
            simp only [hrate, Bool.false_eq_true, if_false, hc]
            exact ih _ _ hrem hfail
          · exact ⟨e, ⟨i, he⟩, by simp [hrate, hsrv, RetryResult.st]⟩

/-- Witness for C7's amended statement: `maxRetries = 0` yields the
`Max retries exceeded` outcome, and a 2-attempt run whose attempts all fail
fatally ends in a re-thrown attempt error. -/
theorem c7_max_retries_exhaustion_witness :
    (retryWithBackoff (fun _ : Nat => Except.ok (3 : Nat)) (fun _ => 0) (fun _ => 0) 0 1200
      ⟨0, 0, []⟩ = .maxRetriesExceeded ⟨0, 0, []⟩)
    ∧ (∃ e : JsError,
        (∃ j, (fun _ : Nat => Except.error (⟨some 404, "x"⟩ : JsError) (α := Nat)) j =
            .error e) ∧
        retryGo (fun _ : Nat => Except.error (⟨some 404, "x"⟩ : JsError) (α := Nat))
          (fun _ => 0) (fun _ => 0) 1200 2 0 ⟨0, 0, []⟩ =
          .thrown e (retryGo (fun _ : Nat => Except.error (⟨some 404, "x"⟩ : JsError)
            (α := Nat)) (fun _ => 0) (fun _ => 0) 1200 2 0 ⟨0, 0, []⟩).st) :=
  ⟨(c7_max_retries_exhaustion (fun _ : Nat => Except.ok (3 : Nat)) (fun _ => 0) (fun _ => 0)
      1200 ⟨0, 0, []⟩).1,
   (c7_max_retries_exhaustion (fun _ : Nat => Except.error (⟨some 404, "x"⟩ : JsError))
      (fun _ => 0) (fun _ => 0) 1200 ⟨0, 0, []⟩).2 2 0 ⟨0, 0, []⟩ (by decide)
      (fun _ => ⟨⟨some 404, "x"⟩, rfl⟩)⟩

/-!
## Ability estimator (`mle-logic.ts`)

JavaScript numbers are idealized as real numbers, and `-Infinity` — produced
only by `logPrior` outside the open interval `(xMin, xMax)` — as `⊥ : EReal`.
`logLikelihood` is real-valued by construction (each per-item likelihood is
floored at `1e-10` before `Math.log`), so every log-posterior lies in
`ℝ ∪ {-∞}`; `⊤ : EReal` never occurs there.  `isFinite` is `isFiniteE`.
-/

noncomputable section
open scoped Classical

/-- An evaluation item: observed `level` and the item's `predictedMaxScore`. -/
structure Evaluation where
  level : ℝ
  predictedMaxScore : ℝ

/-- `sigmoid(z) = 1 / (1 + Math.exp(-z))`. -/
def sigmoid (z : ℝ) : ℝ := 1 / (1 + Real.exp (-z))

/-- The likelihood floor `epsilon = 1e-10` of `logLikelihood`. -/
def epsilonFloor : ℝ := 1e-10

/-- The per-item likelihood computed in the loop body of `logLikelihood`
(`item_alpha`/`item_beta` are the source's hard-coded placeholders 1 and 0):
`sigmoid(ability - k)` when the level `k` equals the item maximum `n`, else
the mass `sigmoid(ability - k) - sigmoid(ability - (k + 1))`. -/
def itemLikelihood (ability : ℝ) (ev : Evaluation) : ℝ :=
  let k := ev.level
  let n := ev.predictedMaxScore
  let item_alpha : ℝ := 1
  let item_beta : ℝ := 0
  let prob_y := sigmoid (item_alpha * (ability - k) + item_beta)
  if k = n then prob_y
  else prob_y - sigmoid (item_alpha * (ability - (k + 1)) + item_beta)

/-- `logLikelihood`: the loop accumulating
`Math.log(Math.max(likelihood, epsilon))` over the evaluations. -/
def logLikelihood (ability : ℝ) (evaluations : List Evaluation) : ℝ :=
  evaluations.foldl
    (fun acc ev => acc + Real.log (max (itemLikelihood ability ev) epsilonFloor)) 0

/-- `logPrior`: `-Infinity` outside `[xMin, xMax]` and on its boundary, else
the source's closed-form log-density (in which `ALPHA` is unused and the
constant is the hard-coded `Math.log(6)`). -/
def logPrior (ability ALPHA BETA_PARAM xMin xMax : ℝ) : EReal :=
  if ¬ (xMin ≤ ability ∧ ability ≤ xMax) then ⊥
  else if ability = xMin ∨ ability = xMax then ⊥
  else
    ((Real.log 6 + Real.log (ability - xMin) - Real.log (xMax - xMin)
      + (BETA_PARAM - 1) * (Real.log (xMax - ability) - Real.log (xMax - xMin)) : ℝ) : EReal)

/-- `logPosterior = logLikelihood + logPrior`. -/
def logPosterior (ability : ℝ) (evaluations : List Evaluation)
    (ALPHA BETA_PARAM xMin xMax : ℝ) : EReal :=
  ((logLikelihood ability evaluations : ℝ) : EReal)
    + logPrior ability ALPHA BETA_PARAM xMin xMax

/-- `isFinite` on the embedded number line. -/
def isFiniteE (x : EReal) : Prop := x ≠ ⊥ ∧ x ≠ ⊤

/-- The grid point `abilities[i] = xMin + (i / gridPoints) * (xMax - xMin)`. -/
def gridPoint (xMin xMax : ℝ) (gridPoints i : ℕ) : ℝ :=
  xMin + ((i : ℝ) / (gridPoints : ℝ)) * (xMax - xMin)

/-- `validIndices.reduce((max, current) => current.value > max.value ? current : max)`:
`none` on the empty list; otherwise the first pair attaining the maximum value
(only a strictly greater value replaces the running maximum). -/
def reduceMax {α : Type} (l : List (EReal × α)) : Option (EReal × α) :=
  match l with
  | [] => none
  | x :: xs => some (xs.foldl (fun mx cur => if mx.1 < cur.1 then cur else mx) x)

/-- The result record of `estimateAbilityByGridSearchMAP`. -/
structure MAPResult where
  bestAbility : ℝ
  abilities : List ℝ
  logPriors : List EReal
  logLikelihoods : List ℝ
  logPosteriors : List EReal

/-- `estimateAbilityByGridSearchMAP`: for an empty evaluation list, the
closed-form prior mode; otherwise grid search over `gridPoints + 1` uniformly
spaced abilities, keeping the first index maximizing the log-posterior among
those with a finite (`isFinite`) value, and falling back to `xMin` when no
log-posterior is finite.  `abilities[maxItem.index]` is embedded as `getD`
with default 0 (the index is always in range). -/
def estimateAbilityByGridSearchMAP (evaluations : List Evaluation)
    (ALPHA BETA_PARAM xMin xMax : ℝ) (gridPoints : ℕ := 500) : MAPResult :=
  if evaluations = [] then
    let mode := xMin + ((xMax - xMin) * (ALPHA - 1)) / (ALPHA + BETA_PARAM - 2)
    ⟨mode, [], [], [], []⟩
  else
    let abilities := (List.range (gridPoints + 1)).map (gridPoint xMin xMax gridPoints)
    let logPriors := abilities.map fun ab => logPrior ab ALPHA BETA_PARAM xMin xMax
    let logLikelihoods := abilities.map fun ab => logLikelihood ab evaluations
    let logPosteriors :=
      List.zipWith (fun ll lp => ((ll : ℝ) : EReal) + lp) logLikelihoods logPriors
    let validIndices :=
      (logPosteriors.enum.map fun p => (p.2, p.1)).filter fun q => isFiniteE q.1
    match reduceMax validIndices with
    | none => ⟨xMin, abilities, logPriors, logLikelihoods, logPosteriors⟩
    | some maxItem =>
      ⟨abilities.getD maxItem.2 0, abilities, logPriors, logLikelihoods, logPosteriors⟩

/-- `calculateBayesianConfidenceInterval`: full domain for an empty list;
otherwise Fisher information as the negated central second difference of the
log-posterior with `h = 1e-4`, the full domain when it is nonpositive or
non-finite, else the `1.96 / sqrt(I)` normal-approximation interval clamped
to `[xMin, xMax]`.  (When some log-posterior value is `-Infinity`, JavaScript
computes a `NaN` or `±Infinity` information — in every case non-finite — and
the embedding's `EReal` arithmetic likewise yields a non-`isFinite` value, so
the branch taken, and hence the returned pair, agree.) -/
def calculateBayesianConfidenceInterval (estimatedAbility : ℝ)
    (evaluations : List Evaluation) (ALPHA BETA_PARAM xMin xMax : ℝ) : ℝ × ℝ :=
  if evaluations = [] then (xMin, xMax)
  else
    let h : ℝ := 0.0001
    let lpAtPeak := logPosterior estimatedAbility evaluations ALPHA BETA_PARAM xMin xMax
    let lpPlusH := logPosterior (estimatedAbility + h) evaluations ALPHA BETA_PARAM xMin xMax
    let lpMinusH := logPosterior (estimatedAbility - h) evaluations ALPHA BETA_PARAM xMin xMax
    let secondDerivative := (lpPlusH - 2 * lpAtPeak + lpMinusH) / ((h * h : ℝ) : EReal)
    let information := -secondDerivative
    if information ≤ 0 ∨ ¬ isFiniteE information then (xMin, xMax)
    else
      let standardError := 1.0 / Real.sqrt information.toReal
      let marginOfError := 1.96 * standardError
      (max xMin (estimatedAbility - marginOfError),
       min xMax (estimatedAbility + marginOfError))

lemma isFiniteE_coe (x : ℝ) : isFiniteE (x : EReal) :=
  ⟨EReal.coe_ne_bot x, EReal.coe_ne_top x⟩

lemma not_isFiniteE_bot : ¬ isFiniteE (⊥ : EReal) := fun h => h.1 rfl

lemma logPrior_ne_top (a A B x0 x1 : ℝ) : logPrior a A B x0 x1 ≠ ⊤ := by
  unfold logPrior
  split
  · exact bot_ne_top
  split
  · exact bot_ne_top
  · exact EReal.coe_ne_top _

lemma logPrior_eq_bot_iff (a A B x0 x1 : ℝ) :
    logPrior a A B x0 x1 = ⊥ ↔ ¬ (x0 < a ∧ a < x1) := by
  by_cases h1 : x0 ≤ a ∧ a ≤ x1
  · by_cases h2 : a = x0 ∨ a = x1
    · have hbot : logPrior a A B x0 x1 = ⊥ := by
        unfold logPrior
        rw [if_neg (not_not_intro h1), if_pos h2]
      simp only [hbot, true_iff]
      rintro ⟨hlt1, hlt2⟩
      rcases h2 with rfl | rfl
      · exact lt_irrefl _ hlt1
      · exact lt_irrefl _ hlt2
    · push_neg at h2
      have hco : logPrior a A B x0 x1 =
          ((Real.log 6 + Real.log (a - x0) - Real.log (x1 - x0)
            + (B - 1) * (Real.log (x1 - a) - Real.log (x1 - x0)) : ℝ) : EReal) := by
        unfold logPrior
        rw [if_neg (not_not_intro h1), if_neg (by push_neg; exact h2)]
      rw [hco]
      simp only [EReal.coe_ne_bot, false_iff, not_not]
      exact ⟨lt_of_le_of_ne h1.1 (Ne.symm h2.1), lt_of_le_of_ne h1.2 h2.2⟩
  · have hbot : logPrior a A B x0 x1 = ⊥ := by
      unfold logPrior
      rw [if_pos h1]
    simp only [hbot, true_iff]
    rintro ⟨hlt1, hlt2⟩
    exact h1 ⟨hlt1.le, hlt2.le⟩

lemma logPosterior_eq_coe_iff_interior (a : ℝ) (evals : List Evaluation)
    (A B x0 x1 : ℝ) :
    (logPosterior a evals A B x0 x1 = ⊥ ↔ ¬ (x0 < a ∧ a < x1))
    ∧ logPosterior a evals A B x0 x1 ≠ ⊤ := by
  unfold logPosterior
  by_cases hp : logPrior a A B x0 x1 = ⊥
  · rw [hp, EReal.add_bot]
    refine ⟨?_, bot_ne_top⟩
    simp only [true_iff]
    exact (logPrior_eq_bot_iff a A B x0 x1).mp hp
  · obtain ⟨y, hy⟩ : ∃ y : ℝ, logPrior a A B x0 x1 = (y : EReal) :=
      ⟨_, (EReal.coe_toReal (logPrior_ne_top a A B x0 x1) hp).symm⟩
    rw [hy, ← EReal.coe_add]
    refine ⟨?_, EReal.coe_ne_top _⟩
    simp only [EReal.coe_ne_bot, false_iff, not_not]
    have := (logPrior_eq_bot_iff a A B x0 x1).not.mp hp
    exact not_not.mp this

lemma isFiniteE_logPosterior_iff (a : ℝ) (evals : List Evaluation)
    (A B x0 x1 : ℝ) :
    isFiniteE (logPosterior a evals A B x0 x1) ↔ (x0 < a ∧ a < x1) := by
  obtain ⟨hbot, htop⟩ := logPosterior_eq_coe_iff_interior a evals A B x0 x1
  unfold isFiniteE
  constructor
  · rintro ⟨h1, _⟩
    by_contra hc
    exact h1 (hbot.mpr hc)
  · intro h
    exact ⟨fun hb => (hbot.mp hb) h, htop⟩

lemma gridPoint_zero (x0 x1 : ℝ) (g : ℕ) : gridPoint x0 x1 g 0 = x0 := by
  simp [gridPoint]

lemma gridPoint_last (x0 x1 : ℝ) (g : ℕ) (hg : 0 < g) : gridPoint x0 x1 g g = x1 := by
  unfold gridPoint
  rw [div_self (by positivity : (g : ℝ) ≠ 0)]
  ring

lemma gridPoint_mono (x0 x1 : ℝ) (hx : x0 ≤ x1) (g : ℕ) {i j : ℕ} (hij : i ≤ j) :
    gridPoint x0 x1 g i ≤ gridPoint x0 x1 g j := by
  unfold gridPoint
  have hd : (0:ℝ) ≤ x1 - x0 := sub_nonneg.mpr hx
  rcases Nat.eq_zero_or_pos g with rfl | hg
  · simp
  · have hgr : (0:ℝ) < g := by positivity
    have ht : (i:ℝ) / g ≤ (j:ℝ) / g :=
      (div_le_div_right hgr).mpr (Nat.cast_le.mpr hij)
    nlinarith

lemma gridPoint_mem (x0 x1 : ℝ) (hx : x0 ≤ x1) (g : ℕ) (hg : 0 < g) {i : ℕ}
    (hi : i ≤ g) : x0 ≤ gridPoint x0 x1 g i ∧ gridPoint x0 x1 g i ≤ x1 := by
  constructor
  · calc x0 = gridPoint x0 x1 g 0 := (gridPoint_zero x0 x1 g).symm
      _ ≤ gridPoint x0 x1 g i := gridPoint_mono x0 x1 hx g (Nat.zero_le i)
  · calc gridPoint x0 x1 g i ≤ gridPoint x0 x1 g g := gridPoint_mono x0 x1 hx g hi
      _ = x1 := gridPoint_last x0 x1 g hg

lemma gridPoint_strictMono (x0 x1 : ℝ) (hx : x0 < x1) (g : ℕ) (hg : 0 < g)
    {i j : ℕ} (hij : i < j) : gridPoint x0 x1 g i < gridPoint x0 x1 g j := by
  unfold gridPoint
  have hd : (0:ℝ) < x1 - x0 := sub_pos.mpr hx
  have hgr : (0:ℝ) < g := by positivity
  have ht : (i:ℝ) / g < (j:ℝ) / g :=
    (div_lt_div_right hgr).mpr (Nat.cast_lt.mpr hij)
  nlinarith

lemma gridPoint_interior (x0 x1 : ℝ) (hx : x0 < x1) (g : ℕ) {i : ℕ}
    (h0 : 0 < i) (h1 : i < g) :
    x0 < gridPoint x0 x1 g i ∧ gridPoint x0 x1 g i < x1 := by
  have hg : 0 < g := lt_trans h0 h1
  constructor
  · calc x0 = gridPoint x0 x1 g 0 := (gridPoint_zero x0 x1 g).symm
      _ < gridPoint x0 x1 g i := gridPoint_strictMono x0 x1 hx g hg h0
  · calc gridPoint x0 x1 g i < gridPoint x0 x1 g g := gridPoint_strictMono x0 x1 hx g hg h1
      _ = x1 := gridPoint_last x0 x1 g hg

lemma foldlMax_first {α : Type} (xs : List (EReal × α)) :
    ∀ (x : EReal × α), ∃ l₁ l₂,
      x :: xs = l₁ ++ (xs.foldl (fun mx cur => if mx.1 < cur.1 then cur else mx) x) :: l₂
      ∧ (∀ y ∈ l₁, y.1 < (xs.foldl (fun mx cur => if mx.1 < cur.1 then cur else mx) x).1)
      ∧ (∀ y ∈ l₂, y.1 ≤ (xs.foldl (fun mx cur => if mx.1 < cur.1 then cur else mx) x).1) := by
  induction xs with
  | nil => exact fun x => ⟨[], [], rfl, by simp, by simp⟩
  | cons y ys ih =>
    intro x
    rw [List.foldl_cons]
    by_cases hxy : x.1 < y.1
    · rw [if_pos hxy]
      obtain ⟨l₁, l₂, heq, h₁, h₂⟩ := ih y
      refine ⟨x :: l₁, l₂, by rw [List.cons_append, ← heq], ?_, h₂⟩
      have hy_le : y.1 ≤ (List.foldl (fun mx cur => if mx.1 < cur.1 then cur else mx) y ys).1 := by
        have hy_mem : y ∈ l₁ ++
            (List.foldl (fun mx cur => if mx.1 < cur.1 then cur else mx) y ys) :: l₂ := by
          rw [← heq]; exact List.mem_cons_self y ys
        rcases List.mem_append.mp hy_mem with hin | hin
        · exact (h₁ y hin).le
        · rcases List.mem_cons.mp hin with heq' | hin
          · exact le_of_eq (congrArg Prod.fst heq')
          · exact h₂ y hin
      intro z hz
      rcases List.mem_cons.mp hz with rfl | hin
      · exact lt_of_lt_of_le hxy hy_le
      · exact h₁ z hin
    · rw [if_neg hxy]
      push_neg at hxy
      obtain ⟨l₁, l₂, heq, h₁, h₂⟩ := ih x
      cases l₁ with
      | nil =>
        simp only [List.nil_append] at heq
        obtain ⟨hx_eq, hys_eq⟩ := List.cons_eq_cons.mp heq
        refine ⟨[], y :: l₂, ?_, by simp, ?_⟩
        · simp only [List.nil_append]
          rw [List.cons_eq_cons]
          refine ⟨hx_eq, ?_⟩
          rw [List.cons_eq_cons]
          exact ⟨rfl, hys_eq⟩
        · intro z hz
          rcases List.mem_cons.mp hz with rfl | hin
          · rw [← hx_eq]; exact hxy
          · exact h₂ z hin
      | cons a l₁' =>
        simp only [List.cons_append] at heq
        obtain ⟨hx_eq, hys_eq⟩ := List.cons_eq_cons.mp heq
        refine ⟨x :: y :: l₁', l₂, ?_, ?_, h₂⟩
        · simp only [List.cons_append]
          rw [List.cons_eq_cons]
          refine ⟨rfl, ?_⟩
          rw [List.cons_eq_cons]
          exact ⟨rfl, hys_eq⟩
        · intro z hz
          have ha : a.1 < (List.foldl (fun mx cur => if mx.1 < cur.1 then cur else mx) x ys).1 :=
            h₁ a (List.mem_cons_self a l₁')
          rcases List.mem_cons.mp hz with rfl | hin
          · exact lt_of_le_of_lt (le_of_eq (congrArg Prod.fst hx_eq)) ha
          · rcases List.mem_cons.mp hin with rfl | hin
            · exact lt_of_le_of_lt (hxy.trans_eq (congrArg Prod.fst hx_eq)) ha
            · exact h₁ z (List.mem_cons_of_mem a hin)

lemma reduceMax_spec {α : Type} (l : List (EReal × α)) (m : EReal × α)
    (h : reduceMax l = some m) :
    ∃ l₁ l₂, l = l₁ ++ m :: l₂ ∧ (∀ y ∈ l₁, y.1 < m.1) ∧ (∀ y ∈ l₂, y.1 ≤ m.1) := by
  cases l with
  | nil => exact absurd h (by simp [reduceMax])
  | cons x xs =>
    have hm : m = xs.foldl (fun mx cur => if mx.1 < cur.1 then cur else mx) x := by
      have := h
      unfold reduceMax at this
      exact (Option.some_inj.mp this).symm
    rw [hm]
    exact foldlMax_first xs x

lemma reduceMax_mem {α : Type} (l : List (EReal × α)) (m : EReal × α)
    (h : reduceMax l = some m) : m ∈ l := by
  obtain ⟨l₁, l₂, heq, _, _⟩ := reduceMax_spec l m h
  rw [heq]
  exact List.mem_append.mpr (Or.inr (List.mem_cons_self m l₂))

lemma reduceMax_le {α : Type} (l : List (EReal × α)) (m : EReal × α)
    (h : reduceMax l = some m) : ∀ y ∈ l, y.1 ≤ m.1 := by
  obtain ⟨l₁, l₂, heq, h₁, h₂⟩ := reduceMax_spec l m h
  intro y hy
  rw [heq] at hy
  rcases List.mem_append.mp hy with hin | hin
  · exact (h₁ y hin).le
  · rcases List.mem_cons.mp hin with rfl | hin
    · exact le_refl _
    · exact h₂ y hin

lemma reduceMax_eq_none_iff {α : Type} (l : List (EReal × α)) :
    reduceMax l = none ↔ l = [] := by
  cases l <;> simp [reduceMax]

/-- The `validIndices` list of the grid search in canonical form: the finite
log-posterior values paired with their grid indices, in index order. -/
def gridValidIndices (evaluations : List Evaluation) (ALPHA BETA_PARAM x0 x1 : ℝ)
    (g : ℕ) : List (EReal × ℕ) :=
  ((List.range (g + 1)).filter fun i =>
    isFiniteE (logPosterior (gridPoint x0 x1 g i) evaluations ALPHA BETA_PARAM x0 x1)).map
    fun i => (logPosterior (gridPoint x0 x1 g i) evaluations ALPHA BETA_PARAM x0 x1, i)

lemma enum_range (n : ℕ) : (List.range n).enum = (List.range n).map fun i => (i, i) := by
  apply List.ext_getElem
  · simp [List.enum_length]
  · intro k h1 h2
    simp [List.getElem_enum, List.getElem_range, List.getElem_map]

lemma mem_gridValidIndices {evaluations : List Evaluation} {A B x0 x1 : ℝ} {g : ℕ}
    {q : EReal × ℕ} (hq : q ∈ gridValidIndices evaluations A B x0 x1 g) :
    q.2 ≤ g ∧ q.1 = logPosterior (gridPoint x0 x1 g q.2) evaluations A B x0 x1
      ∧ isFiniteE q.1 := by
  unfold gridValidIndices at hq
  rcases List.mem_map.mp hq with ⟨i, hi, hqi⟩
  rcases List.mem_filter.mp hi with ⟨hir, hif⟩
  have hig : i ≤ g := Nat.lt_succ_iff.mp (List.mem_range.mp hir)
  have h2 : q.2 = i := by rw [← hqi]
  have h1 : q.1 = logPosterior (gridPoint x0 x1 g i) evaluations A B x0 x1 := by
    rw [← hqi]
  subst h2
  refine ⟨hig, h1, ?_⟩
  rw [h1]
  exact of_decide_eq_true hif

lemma gridValidIndices_mem_of {evaluations : List Evaluation} {A B x0 x1 : ℝ} {g : ℕ}
    {i : ℕ} (hig : i ≤ g)
    (hfin : isFiniteE (logPosterior (gridPoint x0 x1 g i) evaluations A B x0 x1)) :
    (logPosterior (gridPoint x0 x1 g i) evaluations A B x0 x1, i) ∈
      gridValidIndices evaluations A B x0 x1 g := by
  unfold gridValidIndices
  apply List.mem_map.mpr
  refine ⟨i, ?_, rfl⟩
  apply List.mem_filter.mpr
  exact ⟨List.mem_range.mpr (Nat.lt_succ_iff.mpr hig), decide_eq_true hfin⟩

/-- The non-empty branch of the grid search, collapsed: `bestAbility` is the
grid point at the first maximal valid index, or `xMin` when no index is
valid. -/
lemma estimate_bestAbility (evaluations : List Evaluation) (A B x0 x1 : ℝ) (g : ℕ)
    (hne : evaluations ≠ []) :
    (estimateAbilityByGridSearchMAP evaluations A B x0 x1 g).bestAbility =
      match reduceMax (gridValidIndices evaluations A B x0 x1 g) with
      | none => x0
      | some m => gridPoint x0 x1 g m.2 := by
  have hpipe :
      ((List.zipWith (fun ll lp => ((ll : ℝ) : EReal) + lp)
          (((List.range (g + 1)).map (gridPoint x0 x1 g)).map fun ab =>
            logLikelihood ab evaluations)
          (((List.range (g + 1)).map (gridPoint x0 x1 g)).map fun ab =>
            logPrior ab A B x0 x1)).enum.map
        fun p => (p.2, p.1)).filter (fun q => isFiniteE q.1) =
      gridValidIndices evaluations A B x0 x1 g := by
    rw [List.zipWith_map, List.zipWith_same, List.map_map, List.enum_map, enum_range]
    unfold gridValidIndices
    rw [List.map_map, List.map_map, List.filter_map]
    rfl
  unfold estimateAbilityByGridSearchMAP
  rw [if_neg hne]
  simp only [hpipe]
  rcases hr : reduceMax (gridValidIndices evaluations A B x0 x1 g) with _ | m
  · rfl
  · have hm := mem_gridValidIndices (reduceMax_mem _ _ hr)
    have hm2 : m.2 < ((List.range (g + 1)).map (gridPoint x0 x1 g)).length := by
      simp only [List.length_map, List.length_range]
      omega
    simp only [List.getD_eq_getElem _ _ hm2, List.getElem_map, List.getElem_range]

lemma eq_bot_of_not_isFiniteE {x : EReal} (h : ¬ isFiniteE x) (ht : x ≠ ⊤) : x = ⊥ := by
  rcases eq_or_ne x ⊥ with hb | hb
  · exact hb
  · exact absurd ⟨hb, ht⟩ h

/-- C2.  With `xMin < xMax` and a positive grid resolution, `bestAbility`
always lies within `[xMin, xMax]` (with the prior's `ALPHA = 2`,
`BETA_PARAM = 5`); for a non-empty evaluation list with at least one finite
grid log-posterior it is a grid point of the uniform `(gridPoints + 1)`-point
grid whose log-posterior is finite and maximal among all grid points; and if
every grid log-posterior is `-Infinity` it is `xMin`. -/
theorem c2_grid_search_map (evaluations : List Evaluation) (x0 x1 : ℝ) (g : ℕ)
    (hx : x0 < x1) (hg : 0 < g) :
    (x0 ≤ (estimateAbilityByGridSearchMAP evaluations 2 5 x0 x1 g).bestAbility
      ∧ (estimateAbilityByGridSearchMAP evaluations 2 5 x0 x1 g).bestAbility ≤ x1)
    ∧ (evaluations ≠ [] →
        (∃ i0, i0 ≤ g ∧
            isFiniteE (logPosterior (gridPoint x0 x1 g i0) evaluations 2 5 x0 x1)) →
        ∃ i, i ≤ g
          ∧ (estimateAbilityByGridSearchMAP evaluations 2 5 x0 x1 g).bestAbility
              = gridPoint x0 x1 g i
          ∧ isFiniteE (logPosterior (gridPoint x0 x1 g i) evaluations 2 5 x0 x1)
          ∧ ∀ j, j ≤ g → logPosterior (gridPoint x0 x1 g j) evaluations 2 5 x0 x1
              ≤ logPosterior (gridPoint x0 x1 g i) evaluations 2 5 x0 x1)
    ∧ (evaluations ≠ [] →
        (∀ i, i ≤ g → logPosterior (gridPoint x0 x1 g i) evaluations 2 5 x0 x1 = ⊥) →
        (estimateAbilityByGridSearchMAP evaluations 2 5 x0 x1 g).bestAbility = x0) := by
  refine ⟨?_, ?_, ?_⟩
  · by_cases hne : evaluations = []
    · subst hne
      have hb : (estimateAbilityByGridSearchMAP [] 2 5 x0 x1 g).bestAbility =
          x0 + ((x1 - x0) * (2 - 1)) / (2 + 5 - 2) := by
        simp [estimateAbilityByGridSearchMAP]
      rw [hb]
      constructor <;> nlinarith
    · rw [estimate_bestAbility evaluations 2 5 x0 x1 g hne]
      rcases hr : reduceMax (gridValidIndices evaluations 2 5 x0 x1 g) with _ | m
      · exact ⟨le_refl x0, hx.le⟩
      · obtain ⟨hm2, _, _⟩ := mem_gridValidIndices (reduceMax_mem _ _ hr)
        exact gridPoint_mem x0 x1 hx.le g hg hm2
  · intro hne ⟨i0, hi0g, hi0f⟩
    have hmem := gridValidIndices_mem_of hi0g hi0f
    rcases hr : reduceMax (gridValidIndices evaluations 2 5 x0 x1 g) with _ | m
    · rw [reduceMax_eq_none_iff] at hr
      rw [hr] at hmem
      exact absurd hmem (List.not_mem_nil _)
    · obtain ⟨hm2, hval, hfin⟩ := mem_gridValidIndices (reduceMax_mem _ _ hr)
      refine ⟨m.2, hm2, ?_, ?_, ?_⟩
      · rw [estimate_bestAbility evaluations 2 5 x0 x1 g hne, hr]
      · rw [← hval]; exact hfin
      · intro j hj
        by_cases hjf : isFiniteE (logPosterior (gridPoint x0 x1 g j) evaluations 2 5 x0 x1)
        · have hjm := gridValidIndices_mem_of hj hjf
          have := reduceMax_le _ _ hr _ hjm
          rw [← hval]
          exact this
        · rw [eq_bot_of_not_isFiniteE hjf
            (logPosterior_eq_coe_iff_interior _ evaluations 2 5 x0 x1).2]
          exact bot_le
  · intro hne hall
    rw [estimate_bestAbility evaluations 2 5 x0 x1 g hne]
    have hnil : gridValidIndices evaluations 2 5 x0 x1 g = [] := by
      unfold gridValidIndices
      rw [List.map_eq_nil_iff, List.filter_eq_nil_iff]
      intro i hi
      have hig : i ≤ g := Nat.lt_succ_iff.mp (List.mem_range.mp hi)
      simp only [decide_eq_true_eq]
      intro hf
      exact absurd (hall i hig) hf.1
    rw [hnil]
    rfl

/-- Witness for C2: the empty evaluation list on `[0, 4]` with the default
grid; `bestAbility` stays within the domain. -/
theorem c2_grid_search_map_witness :
    (0:ℝ) < 4 ∧ (0 < 500) ∧
      ((0:ℝ) ≤ (estimateAbilityByGridSearchMAP [] 2 5 0 4 500).bestAbility
        ∧ (estimateAbilityByGridSearchMAP [] 2 5 0 4 500).bestAbility ≤ 4) :=
  ⟨by norm_num, by decide,
    (c2_grid_search_map [] 0 4 500 (by norm_num) (by decide)).1⟩

/-- C10.  For a non-empty evaluation list, `xMin < xMax` and at least two
grid intervals: the per-item likelihood floor makes `logLikelihood` finite
everywhere, so an interior grid point (index 1) has a finite log-posterior;
hence the degenerate all-`-Infinity` fallback to `xMin` is unreachable, and
`bestAbility` is an interior grid point, strictly between `xMin` and `xMax`
— in particular it never equals `xMax`. -/
theorem c10_no_degenerate_fallback (evaluations : List Evaluation) (x0 x1 : ℝ)
    (g : ℕ) (hne : evaluations ≠ []) (hx : x0 < x1) (hg : 2 ≤ g) :
    (∃ i, 0 < i ∧ i < g ∧
      isFiniteE (logPosterior (gridPoint x0 x1 g i) evaluations 2 5 x0 x1))
    ∧ ¬ (∀ i, i ≤ g → logPosterior (gridPoint x0 x1 g i) evaluations 2 5 x0 x1 = ⊥)
    ∧ (∃ i, 0 < i ∧ i < g
        ∧ (estimateAbilityByGridSearchMAP evaluations 2 5 x0 x1 g).bestAbility
            = gridPoint x0 x1 g i)
    ∧ x0 < (estimateAbilityByGridSearchMAP evaluations 2 5 x0 x1 g).bestAbility
    ∧ (estimateAbilityByGridSearchMAP evaluations 2 5 x0 x1 g).bestAbility < x1 := by
  have h1g : (1 : ℕ) < g := by omega
  have hint := gridPoint_interior x0 x1 hx g (by omega : 0 < 1) h1g
  have hfin1 : isFiniteE (logPosterior (gridPoint x0 x1 g 1) evaluations 2 5 x0 x1) :=
    (isFiniteE_logPosterior_iff _ evaluations 2 5 x0 x1).mpr hint
  have hmem := gridValidIndices_mem_of (le_of_lt h1g) hfin1
  rcases hr : reduceMax (gridValidIndices evaluations 2 5 x0 x1 g) with _ | m
  · rw [reduceMax_eq_none_iff] at hr
    rw [hr] at hmem
    exact absurd hmem (List.not_mem_nil _)
  obtain ⟨hm2, hval, hfin⟩ := mem_gridValidIndices (reduceMax_mem _ _ hr)
  have hbest : (estimateAbilityByGridSearchMAP evaluations 2 5 x0 x1 g).bestAbility
      = gridPoint x0 x1 g m.2 := by
    rw [estimate_bestAbility evaluations 2 5 x0 x1 g hne, hr]
  have hmint : x0 < gridPoint x0 x1 g m.2 ∧ gridPoint x0 x1 g m.2 < x1 := by
    have := (isFiniteE_logPosterior_iff (gridPoint x0 x1 g m.2) evaluations 2 5 x0 x1).mp
      (hval ▸ hfin)
    exact this
  have hm2pos : 0 < m.2 := by
    rcases Nat.eq_zero_or_pos m.2 with h0 | hpos
    · exfalso
      have := hmint.1
      rw [h0, gridPoint_zero] at this
      exact lt_irrefl x0 this
    · exact hpos
  have hm2lt : m.2 < g := by
    rcases lt_or_eq_of_le hm2 with hlt | heq
    · exact hlt
    · exfalso
      have := hmint.2
      rw [heq, gridPoint_last x0 x1 g (by omega)] at this
      exact lt_irrefl x1 this
  refine ⟨⟨1, by omega, h1g, hfin1⟩, ?_, ⟨m.2, hm2pos, hm2lt, hbest⟩, ?_, ?_⟩
  · intro hall
    exact hfin1.1 (hall 1 (le_of_lt h1g))
  · rw [hbest]; exact hmint.1
  · rw [hbest]; exact hmint.2

/-- Witness for C10 at a concrete input: one evaluation `{level 4, max 4}`
on `[0, 4]` with 500 grid intervals. -/
theorem c10_no_degenerate_fallback_witness :
    ([(⟨4, 4⟩ : Evaluation)] ≠ []) ∧ ((0:ℝ) < 4) ∧ (2 ≤ 500) ∧
      ((0:ℝ) < (estimateAbilityByGridSearchMAP [⟨4, 4⟩] 2 5 0 4 500).bestAbility
        ∧ (estimateAbilityByGridSearchMAP [⟨4, 4⟩] 2 5 0 4 500).bestAbility < 4) :=
  ⟨by simp, by norm_num, by decide,
    ((c10_no_degenerate_fallback [⟨4, 4⟩] 0 4 500 (by simp) (by norm_num) (by decide)).2.2.2.1),
    ((c10_no_degenerate_fallback [⟨4, 4⟩] 0 4 500 (by simp) (by norm_num) (by decide)).2.2.2.2)⟩

lemma foldl_add_eq_sum (f : Evaluation → ℝ) (l : List Evaluation) :
    ∀ c : ℝ, l.foldl (fun acc ev => acc + f ev) c = c + (l.map f).sum := by
  induction l with
  | nil => intro c; simp
  | cons ev l ih =>
    intro c
    rw [List.foldl_cons, ih, List.map_cons, List.sum_cons]
    ring

lemma logLikelihood_eq_sum (θ : ℝ) (evals : List Evaluation) :
    logLikelihood θ evals =
      (evals.map fun ev => Real.log (max (itemLikelihood θ ev) epsilonFloor)).sum := by
  unfold logLikelihood
  rw [foldl_add_eq_sum, zero_add]

lemma logLikelihood_middle (θ : ℝ) (pre post : List Evaluation) (ev : Evaluation) :
    logLikelihood θ (pre ++ ev :: post) =
      logLikelihood θ pre + Real.log (max (itemLikelihood θ ev) epsilonFloor)
        + logLikelihood θ post := by
  rw [logLikelihood_eq_sum, logLikelihood_eq_sum, logLikelihood_eq_sum,
    List.map_append, List.sum_append, List.map_cons, List.sum_cons]
  ring

lemma sigmoid_exp_form (θ k : ℝ) :
    sigmoid (θ - k) = Real.exp θ / (Real.exp θ + Real.exp k) := by
  unfold sigmoid
  rw [neg_sub, Real.exp_sub]
  have h1 : Real.exp θ > 0 := Real.exp_pos θ
  have h2 : Real.exp k > 0 := Real.exp_pos k
  field_simp

lemma itemLikelihood_top_form (θ k n : ℝ) (hk : k = n) :
    itemLikelihood θ ⟨k, n⟩ = Real.exp θ / (Real.exp θ + Real.exp k) := by
  unfold itemLikelihood
  simp only [hk, if_pos, if_true, one_mul, add_zero]
  exact sigmoid_exp_form θ n

lemma itemLikelihood_mid_form (θ k n : ℝ) (hk : k ≠ n) :
    itemLikelihood θ ⟨k, n⟩ =
      Real.exp θ * (Real.exp (k + 1) - Real.exp k)
        / ((Real.exp θ + Real.exp k) * (Real.exp θ + Real.exp (k + 1))) := by
  unfold itemLikelihood
  simp only [if_neg hk, one_mul, add_zero]
  rw [sigmoid_exp_form θ k, sigmoid_exp_form θ (k + 1)]
  have h1 : Real.exp θ + Real.exp k > 0 := by positivity
  have h2 : Real.exp θ + Real.exp (k + 1) > 0 := by positivity
  field_simp
  ring

lemma itemLikelihood_pos (θ k n : ℝ) (hkn : k ≤ n) : 0 < itemLikelihood θ ⟨k, n⟩ := by
  by_cases hk : k = n
  · rw [itemLikelihood_top_form θ k n hk]
    positivity
  · rw [itemLikelihood_mid_form θ k n hk]
    have hlt : Real.exp k < Real.exp (k + 1) := Real.exp_lt_exp.mpr (by linarith)
    have h1 : Real.exp θ + Real.exp k > 0 := by positivity
    have h2 : Real.exp θ + Real.exp (k + 1) > 0 := by positivity
    have h3 : (0:ℝ) < Real.exp θ := Real.exp_pos θ
    apply div_pos
    · nlinarith
    · positivity

set_option maxHeartbeats 2000000 in
/-- Monotone likelihood ratio of the item-response likelihood in the level:
for levels `k < k' ≤ n` and abilities `θ₁ ≤ θ₂`, the cross-product
inequality `L(θ₁; k') · L(θ₂; k) ≤ L(θ₂; k') · L(θ₁; k)` holds. -/
lemma itemLikelihood_cross (k k' n θ₁ θ₂ : ℝ) (hkk : k < k') (hk'n : k' ≤ n)
    (h12 : θ₁ ≤ θ₂) :
    itemLikelihood θ₁ ⟨k', n⟩ * itemLikelihood θ₂ ⟨k, n⟩ ≤
    itemLikelihood θ₂ ⟨k', n⟩ * itemLikelihood θ₁ ⟨k, n⟩ := by
  have hkn : k ≠ n := by linarith
  set a₁ := Real.exp θ₁ with ha₁
  set a₂ := Real.exp θ₂ with ha₂
  set c := Real.exp k with hc
  set c₁ := Real.exp (k + 1) with hc₁
  have ha12 : a₁ ≤ a₂ := Real.exp_le_exp.mpr h12
  have hpa₁ : 0 < a₁ := Real.exp_pos θ₁
  have hpa₂ : 0 < a₂ := Real.exp_pos θ₂
  have hpc : 0 < c := Real.exp_pos k
  have hpc₁ : 0 < c₁ := Real.exp_pos (k + 1)
  have hcc₁ : c < c₁ := Real.exp_lt_exp.mpr (by linarith)
  rw [itemLikelihood_mid_form θ₁ k n hkn, itemLikelihood_mid_form θ₂ k n hkn]
  by_cases hk' : k' = n
  · rw [itemLikelihood_top_form θ₁ k' n hk', itemLikelihood_top_form θ₂ k' n hk']
    set C := Real.exp k' with hC
    have hpC : 0 < C := Real.exp_pos k'
    have hcC : c < C := Real.exp_lt_exp.mpr hkk
    rw [div_mul_div_comm, div_mul_div_comm, div_le_div_iff (by positivity) (by positivity)]
    have hQ : 0 ≤ (a₂ - a₁) * (a₁ * a₂ - c * c₁ + C * (a₂ + a₁) + C * (c + c₁)) := by
      have hbr : 0 ≤ a₁ * a₂ - c * c₁ + C * (a₂ + a₁) + C * (c + c₁) := by nlinarith
      exact mul_nonneg (by linarith) hbr
    have key : (a₂ + C) * ((a₁ + c) * (a₁ + c₁)) ≤ (a₁ + C) * ((a₂ + c) * (a₂ + c₁)) := by
      nlinarith [hQ]
    have hP : (0:ℝ) < a₁ * a₂ * (c₁ - c) :=
      mul_pos (mul_pos hpa₁ hpa₂) (sub_pos.mpr hcc₁)
    nlinarith [mul_le_mul_of_nonneg_left key hP.le]
  · rw [itemLikelihood_mid_form θ₁ k' n hk', itemLikelihood_mid_form θ₂ k' n hk']
    set C := Real.exp k' with hC
    set C₁ := Real.exp (k' + 1) with hC₁
    have hpC : 0 < C := Real.exp_pos k'
    have hpC₁ : 0 < C₁ := Real.exp_pos (k' + 1)
    have hcC : c < C := Real.exp_lt_exp.mpr hkk
    have hc₁C₁ : c₁ < C₁ := Real.exp_lt_exp.mpr (by linarith)
    have hCC₁ : C < C₁ := Real.exp_lt_exp.mpr (by linarith)
    rw [div_mul_div_comm, div_mul_div_comm, div_le_div_iff (by positivity) (by positivity)]
    have p1 : (a₂ + C) * (a₁ + c) ≤ (a₁ + C) * (a₂ + c) := by nlinarith
    have p2 : (a₂ + C₁) * (a₁ + c₁) ≤ (a₁ + C₁) * (a₂ + c₁) := by nlinarith
    have hmul : (a₂ + C) * (a₁ + c) * ((a₂ + C₁) * (a₁ + c₁)) ≤
        (a₁ + C) * (a₂ + c) * ((a₁ + C₁) * (a₂ + c₁)) := by
      apply mul_le_mul p1 p2 (by positivity) (by positivity)
    have hCdiff : (0:ℝ) < C₁ - C := sub_pos.mpr hCC₁
    have hcdiff : (0:ℝ) < c₁ - c := sub_pos.mpr hcc₁
    have hP : (0:ℝ) < a₁ * a₂ * ((C₁ - C) * (c₁ - c)) :=
      mul_pos (mul_pos hpa₁ hpa₂) (mul_pos hCdiff hcdiff)
    nlinarith [mul_le_mul_of_nonneg_left hmul hP.le]

/-- Comparative statics of the first-maximum selection: if the index list is
strictly increasing and the weight difference `w₂ - w₁` is nondecreasing along
it, the first maximizing index under `w₂` is at least the one under `w₁`. -/
lemma argmax_index_mono (l : List ℕ) (hsort : l.Pairwise (· < ·))
    (w₁ w₂ : ℕ → ℝ) (m₁ m₂ : EReal × ℕ)
    (h₁ : reduceMax (l.map fun i => ((w₁ i : EReal), i)) = some m₁)
    (h₂ : reduceMax (l.map fun i => ((w₂ i : EReal), i)) = some m₂)
    (hcross : ∀ i ∈ l, ∀ j ∈ l, i ≤ j → w₂ i + w₁ j ≤ w₂ j + w₁ i) :
    m₁.2 ≤ m₂.2 := by
  by_contra hcon
  push_neg at hcon
  obtain ⟨i₁, hi₁l, hi₁⟩ := List.mem_map.mp (reduceMax_mem _ _ h₁)
  obtain ⟨i₂, hi₂l, hi₂⟩ := List.mem_map.mp (reduceMax_mem _ _ h₂)
  have hm₁2 : m₁.2 = i₁ := by rw [← hi₁]
  have hm₂2 : m₂.2 = i₂ := by rw [← hi₂]
  have hm₁1 : m₁.1 = ((w₁ i₁ : ℝ) : EReal) := by rw [← hi₁]
  have hm₂1 : m₂.1 = ((w₂ i₂ : ℝ) : EReal) := by rw [← hi₂]
  have hi21 : i₂ < i₁ := by rw [hm₁2, hm₂2] at hcon; exact hcon
  have hw2 : w₂ i₁ ≤ w₂ i₂ := by
    have hmem : (((w₂ i₁ : ℝ) : EReal), i₁) ∈ l.map (fun i => ((w₂ i : EReal), i)) :=
      List.mem_map.mpr ⟨i₁, hi₁l, rfl⟩
    have hle := reduceMax_le _ _ h₂ _ hmem
    rw [hm₂1] at hle
    exact EReal.coe_le_coe_iff.mp hle
  have hw1 : w₁ i₁ ≤ w₁ i₂ := by
    have := hcross i₂ hi₂l i₁ hi₁l hi21.le
    linarith
  obtain ⟨L₁, L₂, heq, hstrict, _⟩ := reduceMax_spec _ _ h₁
  obtain ⟨la, lrest, hl, hmapa, hmaprest⟩ := List.map_eq_append_iff.mp heq
  obtain ⟨j, lb, hlrest, hfj, _⟩ := List.map_eq_cons_iff.mp hmaprest
  have hji₁ : j = i₁ := by
    have := congrArg Prod.snd hfj
    simp only at this
    rw [this, hm₁2]
  subst hji₁
  subst hlrest
  rw [hl] at hsort
  obtain ⟨_, hpair2, hpaircross⟩ := List.pairwise_append.mp hsort
  have hi₂la : i₂ ∈ la := by
    rw [hl] at hi₂l
    rcases List.mem_append.mp hi₂l with hin | hin
    · exact hin
    · exfalso
      rcases List.mem_cons.mp hin with rfl | hin
      · exact lt_irrefl i₂ hi21
      · exact absurd (List.rel_of_pairwise_cons hpair2 hin) (by omega)
  have hmemL₁ : (((w₁ i₂ : ℝ) : EReal), i₂) ∈ L₁ := by
    rw [← hmapa]
    exact List.mem_map.mpr ⟨i₂, hi₂la, rfl⟩
  have hslt := hstrict _ hmemL₁
  rw [hm₁1] at hslt
  have hfin : w₁ i₂ < w₁ j := EReal.coe_lt_coe_iff.mp hslt
  linarith

/-- The real value of the log-posterior in the interior of `(xMin, xMax)`. -/
def lpReal (evaluations : List Evaluation) (BETA_PARAM x0 x1 θ : ℝ) : ℝ :=
  logLikelihood θ evaluations
    + (Real.log 6 + Real.log (θ - x0) - Real.log (x1 - x0)
      + (BETA_PARAM - 1) * (Real.log (x1 - θ) - Real.log (x1 - x0)))

lemma logPosterior_coe_of_interior (θ : ℝ) (evaluations : List Evaluation)
    (A B x0 x1 : ℝ) (h1 : x0 < θ) (h2 : θ < x1) :
    logPosterior θ evaluations A B x0 x1 =
      ((lpReal evaluations B x0 x1 θ : ℝ) : EReal) := by
  unfold logPosterior logPrior lpReal
  rw [if_neg (not_not_intro ⟨h1.le, h2.le⟩),
    if_neg (by push_neg; exact ⟨ne_of_gt h1, ne_of_lt h2⟩), ← EReal.coe_add]

/-- `validIndices` in fully real form: the interior grid indices paired with
the real log-posterior values. -/
lemma gridValidIndices_eq_interior_map (evaluations : List Evaluation)
    (A B x0 x1 : ℝ) (g : ℕ) :
    gridValidIndices evaluations A B x0 x1 g =
      ((List.range (g + 1)).filter
        (fun i => decide (x0 < gridPoint x0 x1 g i ∧ gridPoint x0 x1 g i < x1))).map
        (fun i => (((lpReal evaluations B x0 x1 (gridPoint x0 x1 g i) : ℝ) : EReal), i)) := by
  unfold gridValidIndices
  have hfe : ((List.range (g + 1)).filter fun i =>
      isFiniteE (logPosterior (gridPoint x0 x1 g i) evaluations A B x0 x1)) =
      ((List.range (g + 1)).filter
        (fun i => decide (x0 < gridPoint x0 x1 g i ∧ gridPoint x0 x1 g i < x1))) := by
    apply List.filter_congr
    intro i _
    simp only [decide_eq_decide]
    exact isFiniteE_logPosterior_iff (gridPoint x0 x1 g i) evaluations A B x0 x1
  rw [hfe]
  apply List.map_congr_left
  intro i hi
  obtain ⟨_, hif⟩ := List.mem_filter.mp hi
  obtain ⟨h1, h2⟩ : x0 < gridPoint x0 x1 g i ∧ gridPoint x0 x1 g i < x1 :=
    of_decide_eq_true hif
  rw [logPosterior_coe_of_interior _ evaluations A B x0 x1 h1 h2]

/-- C8 (amended).  Fix `ALPHA = 2`, `BETA_PARAM = 5`, `xMin < xMax` and the
grid resolution, and consider two evaluation lists identical except that one
item's level rises from `k` to `k' > k`, both levels at most the item's
`predictedMaxScore`, and suppose that item's likelihood stays at or above the
`1e-10` floor at every grid point under both levels.  Then `bestAbility` for
the higher-level list is at least `bestAbility` for the lower-level list. -/
theorem c8_level_monotonicity (pre post : List Evaluation) (k k' n x0 x1 : ℝ)
    (g : ℕ) (hx : x0 < x1) (hkk : k < k') (hk'n : k' ≤ n)
    (hfloor : ∀ i, i ≤ g →
      epsilonFloor ≤ itemLikelihood (gridPoint x0 x1 g i) ⟨k, n⟩ ∧
      epsilonFloor ≤ itemLikelihood (gridPoint x0 x1 g i) ⟨k', n⟩) :
    (estimateAbilityByGridSearchMAP (pre ++ ⟨k, n⟩ :: post) 2 5 x0 x1 g).bestAbility ≤
    (estimateAbilityByGridSearchMAP (pre ++ ⟨k', n⟩ :: post) 2 5 x0 x1 g).bestAbility := by
  have hne₁ : pre ++ (⟨k, n⟩ : Evaluation) :: post ≠ [] :=
    List.append_ne_nil_of_right_ne_nil pre (by simp)
  have hne₂ : pre ++ (⟨k', n⟩ : Evaluation) :: post ≠ [] :=
    List.append_ne_nil_of_right_ne_nil pre (by simp)
  set l : List ℕ := (List.range (g + 1)).filter
    (fun i => decide (x0 < gridPoint x0 x1 g i ∧ gridPoint x0 x1 g i < x1)) with hldef
  have hsort : l.Pairwise (· < ·) :=
    List.Pairwise.filter _ (List.pairwise_lt_range (g + 1))
  have hmeml : ∀ i ∈ l, i ≤ g ∧ x0 < gridPoint x0 x1 g i ∧ gridPoint x0 x1 g i < x1 := by
    intro i hi
    obtain ⟨hir, hif⟩ := List.mem_filter.mp hi
    exact ⟨Nat.lt_succ_iff.mp (List.mem_range.mp hir), of_decide_eq_true hif⟩
  have hgvi : ∀ evals : List Evaluation,
      gridValidIndices evals 2 5 x0 x1 g =
        l.map (fun i => (((lpReal evals 5 x0 x1 (gridPoint x0 x1 g i) : ℝ) : EReal), i)) := by
    intro evals
    rw [gridValidIndices_eq_interior_map evals 2 5 x0 x1 g, hldef]
  have hw : ∀ i ∈ l, ∀ j ∈ l, i ≤ j →
      lpReal (pre ++ ⟨k', n⟩ :: post) 5 x0 x1 (gridPoint x0 x1 g i)
        + lpReal (pre ++ ⟨k, n⟩ :: post) 5 x0 x1 (gridPoint x0 x1 g j) ≤
      lpReal (pre ++ ⟨k', n⟩ :: post) 5 x0 x1 (gridPoint x0 x1 g j)
        + lpReal (pre ++ ⟨k, n⟩ :: post) 5 x0 x1 (gridPoint x0 x1 g i) := by
    intro i hi j hj hij
    obtain ⟨hig, _, _⟩ := hmeml i hi
    obtain ⟨hjg, _, _⟩ := hmeml j hj
    have hgm : gridPoint x0 x1 g i ≤ gridPoint x0 x1 g j := gridPoint_mono x0 x1 hx.le g hij
    have hLi := hfloor i hig
    have hLj := hfloor j hjg
    have heps : (0:ℝ) < epsilonFloor := by norm_num [epsilonFloor]
    have hcross := itemLikelihood_cross k k' n (gridPoint x0 x1 g i) (gridPoint x0 x1 g j)
      hkk hk'n hgm
    have hposki : 0 < itemLikelihood (gridPoint x0 x1 g i) ⟨k, n⟩ := lt_of_lt_of_le heps hLi.1
    have hposkj : 0 < itemLikelihood (gridPoint x0 x1 g j) ⟨k, n⟩ := lt_of_lt_of_le heps hLj.1
    have hposk'i : 0 < itemLikelihood (gridPoint x0 x1 g i) ⟨k', n⟩ := lt_of_lt_of_le heps hLi.2
    have hposk'j : 0 < itemLikelihood (gridPoint x0 x1 g j) ⟨k', n⟩ := lt_of_lt_of_le heps hLj.2
    have hlog : Real.log (itemLikelihood (gridPoint x0 x1 g i) ⟨k', n⟩)
        + Real.log (itemLikelihood (gridPoint x0 x1 g j) ⟨k, n⟩) ≤
        Real.log (itemLikelihood (gridPoint x0 x1 g j) ⟨k', n⟩)
        + Real.log (itemLikelihood (gridPoint x0 x1 g i) ⟨k, n⟩) := by
      rw [← Real.log_mul hposk'i.ne' hposkj.ne', ← Real.log_mul hposk'j.ne' hposki.ne']
      exact Real.log_le_log (by positivity) hcross
    unfold lpReal
    rw [logLikelihood_middle, logLikelihood_middle, logLikelihood_middle,
      logLikelihood_middle, max_eq_left hLi.1, max_eq_left hLi.2, max_eq_left hLj.1,
      max_eq_left hLj.2]
    linarith
  rw [estimate_bestAbility _ 2 5 x0 x1 g hne₁, estimate_bestAbility _ 2 5 x0 x1 g hne₂,
    hgvi _, hgvi _]
  rcases hr₁ : reduceMax (l.map fun i =>
      (((lpReal (pre ++ ⟨k, n⟩ :: post) 5 x0 x1 (gridPoint x0 x1 g i) : ℝ) : EReal), i))
    with _ | m₁
  · have hlnil : l = [] := by
      rw [reduceMax_eq_none_iff, List.map_eq_nil_iff] at hr₁
      exact hr₁
    have h2 : reduceMax (l.map fun i =>
        (((lpReal (pre ++ ⟨k', n⟩ :: post) 5 x0 x1 (gridPoint x0 x1 g i) : ℝ) : EReal), i))
        = none := by
      rw [reduceMax_eq_none_iff, List.map_eq_nil_iff]
      exact hlnil
    rw [h2]
  · rcases hr₂ : reduceMax (l.map fun i =>
        (((lpReal (pre ++ ⟨k', n⟩ :: post) 5 x0 x1 (gridPoint x0 x1 g i) : ℝ) : EReal), i))
      with _ | m₂
    · exfalso
      rw [reduceMax_eq_none_iff, List.map_eq_nil_iff] at hr₂
      rw [hr₂, List.map_nil] at hr₁
      simp [reduceMax] at hr₁
    · exact gridPoint_mono x0 x1 hx.le g
        (argmax_index_mono l hsort _ _ m₁ m₂ hr₁ hr₂ hw)

lemma exp_nat_bounds (n : ℕ) :
    (2.7182818283:ℝ) ^ n ≤ Real.exp (n:ℝ) ∧ Real.exp (n:ℝ) ≤ (2.7182818286:ℝ) ^ n := by
  rw [← Real.exp_one_pow]
  constructor
  · exact pow_le_pow_left (by norm_num) Real.exp_one_gt_d9.le n
  · exact pow_le_pow_left (Real.exp_pos 1).le Real.exp_one_lt_d9.le n

lemma exp_pos_frac_bounds (x : ℝ) (h0 : 0 ≤ x) (h1 : x < 1) :
    1 + x ≤ Real.exp x ∧ Real.exp x ≤ 1 / (1 - x) := by
  constructor
  · have := Real.add_one_le_exp x
    linarith
  · have h2 := Real.add_one_le_exp (-x)
    have h3 : Real.exp x * Real.exp (-x) = 1 := by
      rw [← Real.exp_add]
      norm_num
    have h4 : (0:ℝ) < 1 - x := by linarith
    have h5 : 1 - x ≤ Real.exp (-x) := by linarith
    rw [le_div_iff h4]
    nlinarith [Real.exp_pos x]

lemma logLikelihood_singleton (θ : ℝ) (ev : Evaluation) :
    logLikelihood θ [ev] = Real.log (max (itemLikelihood θ ev) epsilonFloor) := by
  rw [logLikelihood_eq_sum]
  simp

/-- Witness for C8 at a concrete input: a single item whose level rises from
0 to 1 (maximum 4) on the domain `[0, 4]` with a single-interval grid; the
floor hypothesis reduces to the likelihood of that item at the left endpoint,
which far exceeds `1e-10`. -/
theorem c8_level_monotonicity_witness :
    ((0:ℝ) < 4) ∧ ((0:ℝ) < 1) ∧ ((1:ℝ) ≤ 4) ∧
      ((estimateAbilityByGridSearchMAP [⟨0, 4⟩] 2 5 0 4 0).bestAbility ≤
       (estimateAbilityByGridSearchMAP [⟨1, 4⟩] 2 5 0 4 0).bestAbility) := by
  have he1 := Real.exp_one_gt_d9
  have he2 := Real.exp_one_lt_d9
  have hz : Real.exp (0:ℝ) = 1 := Real.exp_zero
  have hsum : Real.exp (2:ℝ) = Real.exp 1 * Real.exp 1 := by
    rw [← Real.exp_add]
    norm_num
  have hgrid : gridPoint 0 4 0 0 = 0 := by norm_num [gridPoint]
  have hfloor : ∀ i, i ≤ 0 →
      epsilonFloor ≤ itemLikelihood (gridPoint 0 4 0 i) ⟨0, 4⟩ ∧
      epsilonFloor ≤ itemLikelihood (gridPoint 0 4 0 i) ⟨1, 4⟩ := by
    intro i hi
    have hi0 : i = 0 := Nat.le_zero.mp hi
    subst hi0
    rw [hgrid]
    constructor
    · rw [itemLikelihood_mid_form 0 0 4 (by norm_num)]
      rw [show (0:ℝ) + 1 = 1 by norm_num, hz]
      rw [epsilonFloor, le_div_iff (by positivity)]
      nlinarith
    · rw [itemLikelihood_mid_form 0 1 4 (by norm_num)]
      rw [show (1:ℝ) + 1 = 2 by norm_num, hz]
      rw [epsilonFloor, le_div_iff (by positivity)]
      nlinarith
  exact ⟨by norm_num, by norm_num, by norm_num,
    c8_level_monotonicity [] [] 0 1 4 0 4 0 (by norm_num) (by norm_num) (by norm_num) hfloor⟩


lemma exp_nat_add_frac (n : ℕ) (f : ℝ) (hf0 : 0 ≤ f) (hf1 : f < 1) :
    (2.7182818283:ℝ)^n * (1 + f) ≤ Real.exp ((n:ℝ) + f) ∧
    Real.exp ((n:ℝ) + f) ≤ (2.7182818286:ℝ)^n * (1 / (1 - f)) := by
  have h1 := exp_nat_bounds n
  have h2 := exp_pos_frac_bounds f hf0 hf1
  rw [Real.exp_add]
  constructor
  · exact mul_le_mul h1.1 h2.1 (by linarith) (Real.exp_pos _).le
  · exact mul_le_mul h1.2 h2.2 (Real.exp_pos _).le (by positivity)

lemma exp_neg_le_of (n : ℕ) (f c : ℝ) (hf0 : 0 ≤ f) (hf1 : f < 1) (hc : 0 < c)
    (h : c⁻¹ ≤ (2.7182818283:ℝ)^n * (1 + f)) : Real.exp (-((n:ℝ) + f)) ≤ c := by
  rw [Real.exp_neg, inv_le_comm₀ (Real.exp_pos _) hc]
  exact le_trans h (exp_nat_add_frac n f hf0 hf1).1

lemma le_exp_neg_of (n : ℕ) (f c : ℝ) (hf0 : 0 ≤ f) (hf1 : f < 1) (hc : 0 < c)
    (h : (2.7182818286:ℝ)^n * (1 / (1 - f)) ≤ c⁻¹) : c ≤ Real.exp (-((n:ℝ) + f)) := by
  rw [Real.exp_neg]
  calc c = (c⁻¹)⁻¹ := (inv_inv c).symm
    _ ≤ (Real.exp ((n:ℝ) + f))⁻¹ := by
        apply inv_anti₀ (Real.exp_pos _)
        exact le_trans (exp_nat_add_frac n f hf0 hf1).2 h

lemma c8x_exp222 : Real.exp (-22.2:ℝ) ≤ 2.33e-10 := by
  have h := exp_neg_le_of 22 0.2 (2.33e-10) (by norm_num) (by norm_num) (by norm_num) (by norm_num)
  have hx : -(((22:ℕ):ℝ) + 0.2) = -22.2 := by norm_num
  rw [hx] at h; exact h

lemma c8x_exp232 : Real.exp (-23.2:ℝ) ≤ 1e-10 := by
  have h := exp_neg_le_of 23 0.2 (1e-10) (by norm_num) (by norm_num) (by norm_num) (by norm_num)
  have hx : -(((23:ℕ):ℝ) + 0.2) = -23.2 := by norm_num
  rw [hx] at h; exact h

lemma c8x_exp262 : Real.exp (-26.2:ℝ) ≤ 1e-10 := by
  have h := exp_neg_le_of 26 0.2 (1e-10) (by norm_num) (by norm_num) (by norm_num) (by norm_num)
  have hx : -(((26:ℕ):ℝ) + 0.2) = -26.2 := by norm_num
  rw [hx] at h; exact h

lemma c8x_exp192lb : (4.48e-9 : ℝ) ≤ Real.exp (-19.2:ℝ) := by
  have h := le_exp_neg_of 19 0.2 (4.48e-9) (by norm_num) (by norm_num) (by norm_num) (by norm_num)
  have hx : -(((19:ℕ):ℝ) + 0.2) = -19.2 := by norm_num
  rw [hx] at h; exact h

lemma c8x_exp192ub : Real.exp (-19.2:ℝ) ≤ 4.69e-9 := by
  have h := exp_neg_le_of 19 0.2 (4.69e-9) (by norm_num) (by norm_num) (by norm_num) (by norm_num)
  have hx : -(((19:ℕ):ℝ) + 0.2) = -19.2 := by norm_num
  rw [hx] at h; exact h

lemma c8x_L4p1 : itemLikelihood (-22.2) ⟨4, 4⟩ ≤ epsilonFloor := by
  rw [itemLikelihood_top_form _ 4 4 rfl]
  have h1 : Real.exp (-22.2:ℝ) / (Real.exp (-22.2:ℝ) + Real.exp 4) ≤
      Real.exp (-22.2:ℝ) / Real.exp 4 :=
    div_le_div_of_nonneg_left (Real.exp_pos _).le (Real.exp_pos _)
      (le_add_of_nonneg_left (Real.exp_pos _).le)
  have h2 : Real.exp (-22.2:ℝ) / Real.exp 4 = Real.exp (-26.2:ℝ) := by
    rw [← Real.exp_sub]; norm_num
  rw [epsilonFloor]
  calc Real.exp (-22.2:ℝ) / (Real.exp (-22.2:ℝ) + Real.exp 4)
      ≤ Real.exp (-22.2:ℝ) / Real.exp 4 := h1
    _ = Real.exp (-26.2:ℝ) := h2
    _ ≤ 1e-10 := c8x_exp262

lemma c8x_L4p2 : itemLikelihood (-19.2) ⟨4, 4⟩ ≤ epsilonFloor := by
  rw [itemLikelihood_top_form _ 4 4 rfl]
  have h1 : Real.exp (-19.2:ℝ) / (Real.exp (-19.2:ℝ) + Real.exp 4) ≤
      Real.exp (-19.2:ℝ) / Real.exp 4 :=
    div_le_div_of_nonneg_left (Real.exp_pos _).le (Real.exp_pos _)
      (le_add_of_nonneg_left (Real.exp_pos _).le)
  have h2 : Real.exp (-19.2:ℝ) / Real.exp 4 = Real.exp (-23.2:ℝ) := by
    rw [← Real.exp_sub]; norm_num
  rw [epsilonFloor]
  calc Real.exp (-19.2:ℝ) / (Real.exp (-19.2:ℝ) + Real.exp 4)
      ≤ Real.exp (-19.2:ℝ) / Real.exp 4 := h1
    _ = Real.exp (-23.2:ℝ) := h2
    _ ≤ 1e-10 := c8x_exp232

lemma c8x_L0p1 : itemLikelihood (-22.2) ⟨0, 4⟩ ≤ 2.33e-10 := by
  rw [itemLikelihood_mid_form _ 0 4 (by norm_num)]
  rw [show (0:ℝ) + 1 = 1 by norm_num, Real.exp_zero]
  have he1 := Real.exp_one_gt_d9
  have he2 := Real.exp_one_lt_d9
  have hs := Real.exp_pos (-22.2:ℝ)
  have hD : (0:ℝ) < (Real.exp (-22.2:ℝ) + 1) * (Real.exp (-22.2:ℝ) + Real.exp 1) := by positivity
  have hstep : Real.exp (-22.2:ℝ) * (Real.exp 1 - 1) /
      ((Real.exp (-22.2:ℝ) + 1) * (Real.exp (-22.2:ℝ) + Real.exp 1)) ≤ Real.exp (-22.2:ℝ) := by
    rw [div_le_iff hD]
    have hgap : (0:ℝ) ≤ (Real.exp (-22.2:ℝ) + 1) * (Real.exp (-22.2:ℝ) + Real.exp 1)
        - (Real.exp 1 - 1) := by nlinarith
    nlinarith [mul_nonneg hs.le hgap]
  exact le_trans hstep c8x_exp222

lemma c8x_L0p2 : (2.8e-9:ℝ) ≤ itemLikelihood (-19.2) ⟨0, 4⟩ := by
  rw [itemLikelihood_mid_form _ 0 4 (by norm_num)]
  rw [show (0:ℝ) + 1 = 1 by norm_num, Real.exp_zero]
  have he1 := Real.exp_one_gt_d9
  have he2 := Real.exp_one_lt_d9
  have hlb := c8x_exp192lb
  have hub := c8x_exp192ub
  have hs := Real.exp_pos (-19.2:ℝ)
  have hD : (0:ℝ) < (Real.exp (-19.2:ℝ) + 1) * (Real.exp (-19.2:ℝ) + Real.exp 1) := by positivity
  rw [le_div_iff hD]
  have hDub : (Real.exp (-19.2:ℝ) + 1) * (Real.exp (-19.2:ℝ) + Real.exp 1) ≤ 2.7182819 := by
    nlinarith
  nlinarith

lemma c8x_log2_eq : Real.log 6 - Real.log 3 = Real.log 2 := by
  rw [← Real.log_div (by norm_num) (by norm_num)]
  norm_num

lemma c8x_main1 : lpReal [⟨0, 4⟩] 5 (-25.2) (-16.2) (-22.2) <
    lpReal [⟨0, 4⟩] 5 (-25.2) (-16.2) (-19.2) := by
  have hmax1 : max (itemLikelihood (-22.2) ⟨0, 4⟩) epsilonFloor ≤ 2.33e-10 :=
    max_le c8x_L0p1 (by rw [epsilonFloor]; norm_num)
  have hmax1pos : (0:ℝ) < max (itemLikelihood (-22.2) ⟨0, 4⟩) epsilonFloor :=
    lt_of_lt_of_le (by rw [epsilonFloor]; norm_num) (le_max_right _ _)
  have hmax2 : (2.8e-9:ℝ) ≤ max (itemLikelihood (-19.2) ⟨0, 4⟩) epsilonFloor :=
    le_trans c8x_L0p2 (le_max_left _ _)
  have h8 : (3:ℝ) * Real.log 2 = Real.log 8 := by
    rw [show (8:ℝ) = 2 ^ (3:ℕ) by norm_num, Real.log_pow]
    push_cast
    ring
  have hkey : Real.log (max (itemLikelihood (-22.2) ⟨0, 4⟩) epsilonFloor) + 3 * Real.log 2 <
      Real.log (max (itemLikelihood (-19.2) ⟨0, 4⟩) epsilonFloor) := by
    rw [h8, ← Real.log_mul hmax1pos.ne' (by norm_num)]
    apply Real.log_lt_log (by positivity)
    nlinarith
  unfold lpReal
  rw [logLikelihood_singleton, logLikelihood_singleton]
  have e1 : (-22.2:ℝ) - -25.2 = 3 := by norm_num
  have e2 : (-16.2:ℝ) - -25.2 = 9 := by norm_num
  have e3 : (-16.2:ℝ) - -22.2 = 6 := by norm_num
  have e4 : (-19.2:ℝ) - -25.2 = 6 := by norm_num
  have e5 : (-16.2:ℝ) - -19.2 = 3 := by norm_num
  rw [e1, e2, e3, e4, e5]
  have hld := c8x_log2_eq
  linarith [hkey]

lemma c8x_main2 : lpReal [⟨4, 4⟩] 5 (-25.2) (-16.2) (-19.2) ≤
    lpReal [⟨4, 4⟩] 5 (-25.2) (-16.2) (-22.2) := by
  have hm1 : max (itemLikelihood (-22.2) ⟨4, 4⟩) epsilonFloor = epsilonFloor :=
    max_eq_right c8x_L4p1
  have hm2 : max (itemLikelihood (-19.2) ⟨4, 4⟩) epsilonFloor = epsilonFloor :=
    max_eq_right c8x_L4p2
  unfold lpReal
  rw [logLikelihood_singleton, logLikelihood_singleton, hm1, hm2]
  have e1 : (-22.2:ℝ) - -25.2 = 3 := by norm_num
  have e2 : (-16.2:ℝ) - -25.2 = 9 := by norm_num
  have e3 : (-16.2:ℝ) - -22.2 = 6 := by norm_num
  have e4 : (-19.2:ℝ) - -25.2 = 6 := by norm_num
  have e5 : (-16.2:ℝ) - -19.2 = 3 := by norm_num
  rw [e1, e2, e3, e4, e5]
  have hld := c8x_log2_eq
  have h2pos : (0:ℝ) ≤ Real.log 2 := Real.log_nonneg (by norm_num)
  linarith

lemma c8x_grid1 : gridPoint (-25.2) (-16.2) 3 1 = -22.2 := by norm_num [gridPoint]

lemma c8x_grid2 : gridPoint (-25.2) (-16.2) 3 2 = -19.2 := by norm_num [gridPoint]

lemma c8x_filter : ((List.range (3 + 1)).filter
    (fun i => decide ((-25.2:ℝ) < gridPoint (-25.2) (-16.2) 3 i
      ∧ gridPoint (-25.2) (-16.2) 3 i < -16.2))) = [1, 2] := by
  have hg0 : gridPoint (-25.2) (-16.2) 3 0 = -25.2 := by norm_num [gridPoint]
  have hg3 : gridPoint (-25.2) (-16.2) 3 3 = -16.2 := by norm_num [gridPoint]
  rw [show List.range (3 + 1) = [0, 1, 2, 3] from rfl]
  simp only [List.filter_cons, List.filter_nil, decide_eq_true_eq]
  rw [hg0, c8x_grid1, c8x_grid2, hg3]
  norm_num

lemma c8x_best1 : (estimateAbilityByGridSearchMAP [⟨0, 4⟩] 2 5 (-25.2) (-16.2) 3).bestAbility
    = -19.2 := by
  rw [estimate_bestAbility _ 2 5 (-25.2) (-16.2) 3 (by simp),
    gridValidIndices_eq_interior_map, c8x_filter]
  simp only [List.map_cons, List.map_nil, reduceMax, List.foldl_cons, List.foldl_nil]
  have hlt : ((lpReal [⟨0, 4⟩] 5 (-25.2) (-16.2) (gridPoint (-25.2) (-16.2) 3 1) : ℝ) : EReal)
      < ((lpReal [⟨0, 4⟩] 5 (-25.2) (-16.2) (gridPoint (-25.2) (-16.2) 3 2) : ℝ) : EReal) := by
    rw [c8x_grid1, c8x_grid2]
    exact EReal.coe_lt_coe_iff.mpr c8x_main1
  rw [if_pos hlt]
  exact c8x_grid2

lemma c8x_best2 : (estimateAbilityByGridSearchMAP [⟨4, 4⟩] 2 5 (-25.2) (-16.2) 3).bestAbility
    = -22.2 := by
  rw [estimate_bestAbility _ 2 5 (-25.2) (-16.2) 3 (by simp),
    gridValidIndices_eq_interior_map, c8x_filter]
  simp only [List.map_cons, List.map_nil, reduceMax, List.foldl_cons, List.foldl_nil]
  have hnlt : ¬ ((lpReal [⟨4, 4⟩] 5 (-25.2) (-16.2) (gridPoint (-25.2) (-16.2) 3 1) : ℝ) : EReal)
      < ((lpReal [⟨4, 4⟩] 5 (-25.2) (-16.2) (gridPoint (-25.2) (-16.2) 3 2) : ℝ) : EReal) := by
    rw [c8x_grid1, c8x_grid2]
    rw [not_lt]
    exact EReal.coe_le_coe_iff.mpr c8x_main2
  rw [if_neg hnlt]
  exact c8x_grid1

/-- C8 counterexample: with `ALPHA = 2`, `BETA_PARAM = 5`, domain
`[-25.2, -16.2]` and 3 grid intervals, raising the single item's level from 0
to 4 (its `predictedMaxScore`, unchanged) strictly lowers `bestAbility` (from
-19.2 to -22.2): deep in the left tail the raised level's likelihood falls
below the `1e-10` floor at every valid grid point, flattening the
log-likelihood there and letting the prior pull the maximizer down, while the
lower level's likelihood still grows across the grid. -/
theorem c8_counterexample :
    (estimateAbilityByGridSearchMAP [⟨4, 4⟩] 2 5 (-25.2) (-16.2) 3).bestAbility <
    (estimateAbilityByGridSearchMAP [⟨0, 4⟩] 2 5 (-25.2) (-16.2) 3).bestAbility := by
  rw [c8x_best1, c8x_best2]
  norm_num

/-- C3.  For the empty evaluation list the grid search is skipped:
`bestAbility` is the closed-form prior mode
`xMin + (xMax - xMin) * (ALPHA - 1) / (ALPHA + BETA_PARAM - 2)` (with empty
diagnostic arrays), and the confidence interval is the full domain
`{lower: xMin, upper: xMax}` without any curvature computation. -/
theorem c3_empty_evaluations (ALPHA BETA_PARAM xMin xMax : ℝ) (gridPoints : ℕ)
    (estimatedAbility : ℝ) :
    (estimateAbilityByGridSearchMAP [] ALPHA BETA_PARAM xMin xMax gridPoints).bestAbility =
      xMin + (xMax - xMin) * (ALPHA - 1) / (ALPHA + BETA_PARAM - 2)
    ∧ (estimateAbilityByGridSearchMAP [] ALPHA BETA_PARAM xMin xMax gridPoints).abilities = []
    ∧ calculateBayesianConfidenceInterval estimatedAbility [] ALPHA BETA_PARAM xMin xMax =
        (xMin, xMax) := by
  refine ⟨?_, ?_, ?_⟩ <;> simp [estimateAbilityByGridSearchMAP,
    calculateBayesianConfidenceInterval]

/-- The Fisher information computed by `calculateBayesianConfidenceInterval`:
the negated central second difference of the log-posterior with `h = 1e-4`. -/
def fisherInformation (estimatedAbility : ℝ) (evaluations : List Evaluation)
    (ALPHA BETA_PARAM x0 x1 : ℝ) : EReal :=
  -((logPosterior (estimatedAbility + 0.0001) evaluations ALPHA BETA_PARAM x0 x1
      - 2 * logPosterior estimatedAbility evaluations ALPHA BETA_PARAM x0 x1
      + logPosterior (estimatedAbility - 0.0001) evaluations ALPHA BETA_PARAM x0 x1)
    / ((0.0001 * 0.0001 : ℝ) : EReal))

lemma ci_eq_branch (θ : ℝ) (evaluations : List Evaluation) (A B x0 x1 : ℝ)
    (hne : evaluations ≠ []) :
    calculateBayesianConfidenceInterval θ evaluations A B x0 x1 =
      if fisherInformation θ evaluations A B x0 x1 ≤ 0
          ∨ ¬ isFiniteE (fisherInformation θ evaluations A B x0 x1) then (x0, x1)
      else
        (max x0 (θ - 1.96 * (1.0 / Real.sqrt (fisherInformation θ evaluations A B x0 x1).toReal)),
         min x1 (θ + 1.96 * (1.0 / Real.sqrt (fisherInformation θ evaluations A B x0 x1).toReal))) := by
  unfold calculateBayesianConfidenceInterval fisherInformation
  rw [if_neg hne]

/-- C4.  For a non-empty evaluation list and an estimate within
`[xMin, xMax]`: when the Fisher information `I` — the negated central second
difference of the log-posterior with `h = 1e-4` — is nonpositive or
non-finite, the interval is the full domain `(xMin, xMax)`; otherwise it is
`(max xMin (θ - 1.96/√I), min xMax (θ + 1.96/√I))`; and in every case
`xMin ≤ lower ≤ θ ≤ upper ≤ xMax`. -/
theorem c4_confidence_interval (evaluations : List Evaluation) (A B x0 x1 θ : ℝ)
    (hne : evaluations ≠ []) (hθ1 : x0 ≤ θ) (hθ2 : θ ≤ x1) :
    ((fisherInformation θ evaluations A B x0 x1 ≤ 0
        ∨ ¬ isFiniteE (fisherInformation θ evaluations A B x0 x1)) →
      calculateBayesianConfidenceInterval θ evaluations A B x0 x1 = (x0, x1))
    ∧ (¬ (fisherInformation θ evaluations A B x0 x1 ≤ 0
        ∨ ¬ isFiniteE (fisherInformation θ evaluations A B x0 x1)) →
      calculateBayesianConfidenceInterval θ evaluations A B x0 x1 =
        (max x0 (θ - 1.96 / Real.sqrt (fisherInformation θ evaluations A B x0 x1).toReal),
         min x1 (θ + 1.96 / Real.sqrt (fisherInformation θ evaluations A B x0 x1).toReal)))
    ∧ (x0 ≤ (calculateBayesianConfidenceInterval θ evaluations A B x0 x1).1
       ∧ (calculateBayesianConfidenceInterval θ evaluations A B x0 x1).1 ≤ θ
       ∧ θ ≤ (calculateBayesianConfidenceInterval θ evaluations A B x0 x1).2
       ∧ (calculateBayesianConfidenceInterval θ evaluations A B x0 x1).2 ≤ x1) := by
  rw [ci_eq_branch θ evaluations A B x0 x1 hne]
  by_cases hcond : fisherInformation θ evaluations A B x0 x1 ≤ 0
      ∨ ¬ isFiniteE (fisherInformation θ evaluations A B x0 x1)
  · rw [if_pos hcond]
    exact ⟨fun _ => rfl, fun hc => absurd hcond hc,
      le_refl x0, hθ1, hθ2, le_refl x1⟩
  · rw [if_neg hcond]
    have hmargin : (0:ℝ) ≤ 1.96 *
        (1.0 / Real.sqrt (fisherInformation θ evaluations A B x0 x1).toReal) := by
      positivity
    refine ⟨fun hc => absurd hc hcond, fun _ => ?_, ?_, ?_, ?_, ?_⟩
    · rw [show (1.0:ℝ) = 1 by norm_num]
      simp only [mul_one_div]
    · exact le_max_left x0 _
    · exact max_le hθ1 (by linarith)
    · exact le_min hθ2 (by linarith)
    · exact min_le_left x1 _

/-- Witness for C4 at a concrete input: one evaluation `{level 4, max 4}`,
estimate 2 on `[0, 4]`; the interval brackets the estimate inside the
domain. -/
theorem c4_confidence_interval_witness :
    ([(⟨4, 4⟩ : Evaluation)] ≠ []) ∧ ((0:ℝ) ≤ 2) ∧ ((2:ℝ) ≤ 4) ∧
      ((0:ℝ) ≤ (calculateBayesianConfidenceInterval 2 [⟨4, 4⟩] 2 5 0 4).1
       ∧ (calculateBayesianConfidenceInterval 2 [⟨4, 4⟩] 2 5 0 4).1 ≤ 2
       ∧ (2:ℝ) ≤ (calculateBayesianConfidenceInterval 2 [⟨4, 4⟩] 2 5 0 4).2
       ∧ (calculateBayesianConfidenceInterval 2 [⟨4, 4⟩] 2 5 0 4).2 ≤ 4) :=
  ⟨by simp, by norm_num, by norm_num,
    (c4_confidence_interval [⟨4, 4⟩] 2 5 0 4 2 (by simp) (by norm_num) (by norm_num)).2.2⟩


lemma c9_d_bounds : (1.008:ℝ) ≤ Real.exp 0.008 ∧ Real.exp 0.008 ≤ 1.008065 := by
  obtain ⟨h1, h2⟩ := exp_pos_frac_bounds 0.008 (by norm_num) (by norm_num)
  constructor
  · linarith
  · calc Real.exp 0.008 ≤ 1 / (1 - 0.008) := h2
      _ ≤ 1.008065 := by norm_num

lemma c9_exp2_bounds : (7.38905:ℝ) ≤ Real.exp 2 ∧ Real.exp 2 ≤ 7.38906 := by
  obtain ⟨h1, h2⟩ := exp_nat_bounds 2
  push_cast at h1 h2
  constructor
  · calc (7.38905:ℝ) ≤ 2.7182818283 ^ 2 := by norm_num
      _ ≤ Real.exp 2 := h1
  · calc Real.exp 2 ≤ (2.7182818286:ℝ) ^ 2 := h2
      _ ≤ 7.38906 := by norm_num

lemma c9_exp3_bounds : (20.0855:ℝ) ≤ Real.exp 3 ∧ Real.exp 3 ≤ 20.0856 := by
  obtain ⟨h1, h2⟩ := exp_nat_bounds 3
  push_cast at h1 h2
  constructor
  · calc (20.0855:ℝ) ≤ 2.7182818283 ^ 3 := by norm_num
      _ ≤ Real.exp 3 := h1
  · calc Real.exp 3 ≤ (2.7182818286:ℝ) ^ 3 := h2
      _ ≤ 20.0856 := by norm_num

lemma c9_exp4_bounds : (54.5981:ℝ) ≤ Real.exp 4 ∧ Real.exp 4 ≤ 54.5982 := by
  obtain ⟨h1, h2⟩ := exp_nat_bounds 4
  push_cast at h1 h2
  constructor
  · calc (54.5981:ℝ) ≤ 2.7182818283 ^ 4 := by norm_num
      _ ≤ Real.exp 4 := h1
  · calc Real.exp 4 ≤ (2.7182818286:ℝ) ^ 4 := h2
      _ ≤ 54.5982 := by norm_num

lemma c9_exp15_ub : Real.exp 1.5 ≤ 4.56 := by
  have h0625 : Real.exp 0.0625 ≤ 16/15 := by
    obtain ⟨_, h⟩ := exp_pos_frac_bounds 0.0625 (by norm_num) (by norm_num)
    calc Real.exp 0.0625 ≤ 1 / (1 - 0.0625) := h
      _ = 16/15 := by norm_num
  have h05 : Real.exp 0.5 ≤ (16/15:ℝ)^8 := by
    have he : Real.exp 0.5 = (Real.exp 0.0625)^8 := by
      rw [← Real.exp_nat_mul]
      norm_num
    rw [he]
    exact pow_le_pow_left (Real.exp_pos _).le h0625 8
  have h1 : Real.exp 1.5 = Real.exp 1 * Real.exp 0.5 := by
    rw [← Real.exp_add]
    norm_num
  rw [h1]
  calc Real.exp 1 * Real.exp 0.5 ≤ 2.7182818286 * (16/15:ℝ)^8 :=
        mul_le_mul Real.exp_one_lt_d9.le h05 (Real.exp_pos _).le (by norm_num)
    _ ≤ 4.56 := by norm_num

lemma c9_exp152_ub : Real.exp 1.52 ≤ 4.66 := by
  have h065 : Real.exp 0.065 ≤ 200/187 := by
    obtain ⟨_, h⟩ := exp_pos_frac_bounds 0.065 (by norm_num) (by norm_num)
    calc Real.exp 0.065 ≤ 1 / (1 - 0.065) := h
      _ = 200/187 := by norm_num
  have h052 : Real.exp 0.52 ≤ (200/187:ℝ)^8 := by
    have he : Real.exp 0.52 = (Real.exp 0.065)^8 := by
      rw [← Real.exp_nat_mul]
      norm_num
    rw [he]
    exact pow_le_pow_left (Real.exp_pos _).le h065 8
  have h1 : Real.exp 1.52 = Real.exp 1 * Real.exp 0.52 := by
    rw [← Real.exp_add]
    norm_num
  rw [h1]
  calc Real.exp 1 * Real.exp 0.52 ≤ 2.7182818286 * (200/187:ℝ)^8 :=
        mul_le_mul Real.exp_one_lt_d9.le h052 (Real.exp_pos _).le (by norm_num)
    _ ≤ 4.66 := by norm_num

lemma c9_exp1992_lb : (7.11:ℝ) ≤ Real.exp 1.992 := by
  have h062 : (1.062:ℝ) ≤ Real.exp 0.062 := by
    have := Real.add_one_le_exp (0.062:ℝ)
    linarith
  have h0992 : (1.062:ℝ)^16 ≤ Real.exp 0.992 := by
    have he : Real.exp 0.992 = (Real.exp 0.062)^16 := by
      rw [← Real.exp_nat_mul]
      norm_num
    rw [he]
    exact pow_le_pow_left (by norm_num) h062 16
  have h1 : Real.exp 1.992 = Real.exp 1 * Real.exp 0.992 := by
    rw [← Real.exp_add]
    norm_num
  rw [h1]
  calc (7.11:ℝ) ≤ 2.7182818283 * (1.062:ℝ)^16 := by norm_num
    _ ≤ Real.exp 1 * Real.exp 0.992 :=
        mul_le_mul Real.exp_one_gt_d9.le h0992 (by positivity) (Real.exp_pos _).le

lemma c9_grid (i : ℕ) : gridPoint 0 4 500 i = (i:ℝ) * 0.008 := by
  unfold gridPoint
  push_cast
  ring

lemma c9_fl_top (θ : ℝ) (h1 : 0 ≤ θ) : epsilonFloor ≤ itemLikelihood θ ⟨4, 4⟩ := by
  rw [itemLikelihood_top_form θ 4 4 rfl]
  obtain ⟨hB1, hB2⟩ := c9_exp4_bounds
  have ha1 : (1:ℝ) ≤ Real.exp θ := by
    have := Real.add_one_le_exp θ
    linarith
  have hd : (0:ℝ) < Real.exp θ + Real.exp 4 := by positivity
  rw [epsilonFloor, le_div_iff hd]
  nlinarith

lemma c9_fl_mid34 (θ : ℝ) (h1 : 0 ≤ θ) (h2 : θ ≤ 1.52) :
    epsilonFloor ≤ itemLikelihood θ ⟨3, 4⟩ := by
  rw [itemLikelihood_mid_form θ 3 4 (by norm_num), show (3:ℝ)+1 = 4 by norm_num]
  obtain ⟨hA1, hA2⟩ := c9_exp3_bounds
  obtain ⟨hB1, hB2⟩ := c9_exp4_bounds
  have ha1 : (1:ℝ) ≤ Real.exp θ := by
    have := Real.add_one_le_exp θ
    linarith
  have ha2 : Real.exp θ ≤ 4.66 :=
    le_trans (Real.exp_le_exp.mpr (by linarith)) c9_exp152_ub
  have hd : (0:ℝ) < (Real.exp θ + Real.exp 3) * (Real.exp θ + Real.exp 4) := by positivity
  rw [epsilonFloor, le_div_iff hd]
  nlinarith

lemma c9_fl_mid04 (θ : ℝ) (h1 : 0 ≤ θ) (h2 : θ ≤ 4) :
    epsilonFloor ≤ itemLikelihood θ ⟨0, 4⟩ := by
  rw [itemLikelihood_mid_form θ 0 4 (by norm_num), show (0:ℝ)+1 = 1 by norm_num,
    Real.exp_zero]
  have hE1 := Real.exp_one_gt_d9
  have hE2 := Real.exp_one_lt_d9
  obtain ⟨hB1, hB2⟩ := c9_exp4_bounds
  have ha1 : (1:ℝ) ≤ Real.exp θ := by
    have := Real.add_one_le_exp θ
    linarith
  have ha2 : Real.exp θ ≤ 54.5982 := le_trans (Real.exp_le_exp.mpr h2) hB2
  have hd : (0:ℝ) < (Real.exp θ + 1) * (Real.exp θ + Real.exp 1) := by positivity
  rw [epsilonFloor, le_div_iff hd]
  nlinarith

lemma c9_fl_mid14 (θ : ℝ) (h1 : 0 ≤ θ) (h2 : θ ≤ 4) :
    epsilonFloor ≤ itemLikelihood θ ⟨1, 4⟩ := by
  rw [itemLikelihood_mid_form θ 1 4 (by norm_num), show (1:ℝ)+1 = 2 by norm_num]
  have hE1 := Real.exp_one_gt_d9
  have hE2 := Real.exp_one_lt_d9
  obtain ⟨hC1, hC2⟩ := c9_exp2_bounds
  obtain ⟨hB1, hB2⟩ := c9_exp4_bounds
  have ha1 : (1:ℝ) ≤ Real.exp θ := by
    have := Real.add_one_le_exp θ
    linarith
  have ha2 : Real.exp θ ≤ 54.5982 := le_trans (Real.exp_le_exp.mpr h2) hB2
  have hd : (0:ℝ) < (Real.exp θ + Real.exp 1) * (Real.exp θ + Real.exp 2) := by positivity
  rw [epsilonFloor, le_div_iff hd]
  nlinarith

lemma c9_logcomb (p q r s : ℝ) (hp : 0 < p) (hq : 0 < q) (hr : 0 < r) (hs : 0 < s) :
    Real.log p + Real.log q + Real.log r + 4 * Real.log s
      = Real.log (p * q * r * s ^ 4) := by
  rw [Real.log_mul (by positivity) (by positivity),
      Real.log_mul (by positivity) (by positivity),
      Real.log_mul (by positivity) (by positivity),
      Real.log_pow]
  push_cast
  ring

set_option maxHeartbeats 1000000 in
lemma c9_prod1 (θ : ℝ) (h1 : 0.008 ≤ θ) (h2 : θ ≤ 1.496) :
    Real.exp θ / (Real.exp θ + Real.exp 4)
      * (Real.exp θ * (Real.exp 4 - Real.exp 3)
          / ((Real.exp θ + Real.exp 3) * (Real.exp θ + Real.exp 4)))
      * θ * (4 - θ) ^ 4
    < Real.exp (θ + 0.008) / (Real.exp (θ + 0.008) + Real.exp 4)
      * (Real.exp (θ + 0.008) * (Real.exp 4 - Real.exp 3)
          / ((Real.exp (θ + 0.008) + Real.exp 3) * (Real.exp (θ + 0.008) + Real.exp 4)))
      * (θ + 0.008) * (4 - (θ + 0.008)) ^ 4 := by
  rw [Real.exp_add]
  set a := Real.exp θ with ha
  set d := Real.exp 0.008 with hd
  set A := Real.exp 3 with hA
  set B := Real.exp 4 with hB
  obtain ⟨hd1, hd2⟩ := c9_d_bounds
  obtain ⟨hA1, hA2⟩ := c9_exp3_bounds
  obtain ⟨hB1, hB2⟩ := c9_exp4_bounds
  have hapos : (0:ℝ) < a := Real.exp_pos θ
  have hdpos : (0:ℝ) < d := Real.exp_pos _
  have ha1 : (1:ℝ) ≤ a := by
    have := Real.add_one_le_exp θ
    rw [← ha] at this
    linarith
  have ha2 : a ≤ 4.56 := by
    rw [ha]
    exact le_trans (Real.exp_le_exp.mpr (by linarith)) c9_exp15_ub
  have had : a * d ≤ 4.597 := by
    nlinarith [mul_le_mul ha2 hd2 hdpos.le (by norm_num : (0:ℝ) ≤ 4.56)]
  have hBA : (0:ℝ) < B - A := by linarith
  have hθpos : (0:ℝ) < θ := by linarith
  have h4θpos : (0:ℝ) < 4 - θ := by linarith
  -- factor 1: the top item's likelihood grows by at least 1.00735
  have hF1 : 1.00735 * (a / (a + B)) ≤ a * d / (a * d + B) := by
    rw [← mul_div_assoc, div_le_div_iff (by positivity) (by positivity)]
    have hkey : 0.00735 * (a * d) ≤ B * (d - 1.00735) := by
      nlinarith [mul_le_mul_of_nonneg_left
        (show (0.00065:ℝ) ≤ d - 1.00735 by linarith)
        (show (0:ℝ) ≤ B by linarith)]
    nlinarith [mul_le_mul_of_nonneg_left hkey hapos.le]
  -- factor 2 pieces
  have hF2a : 1.0064 * (a * d + A) ≤ d * (a + A) := by
    have hkey : 0.0064 * (a * d) ≤ A * (d - 1.0064) := by
      nlinarith [mul_le_mul_of_nonneg_left
        (show (0.0016:ℝ) ≤ d - 1.0064 by linarith)
        (show (0:ℝ) ≤ A by linarith)]
    nlinarith [hkey]
  have hF2b : 0.999338 * (a * d + B) ≤ a + B := by
    have hkey : 0.999338 * (a * d) - a ≤ 0.03374 := by
      nlinarith [mul_le_mul_of_nonneg_left hd2 hapos.le]
    nlinarith [hkey]
  have hF2 : 1.00573 * (a * (B - A) / ((a + A) * (a + B))) ≤
      a * d * (B - A) / ((a * d + A) * (a * d + B)) := by
    have hden1 : (0:ℝ) < (a + A) * (a + B) := by positivity
    have hden2 : (0:ℝ) < (a * d + A) * (a * d + B) := by positivity
    rw [← mul_div_assoc, div_le_div_iff hden1 hden2]
    have hm : (1.0064 * (a * d + A)) * (0.999338 * (a * d + B)) ≤ (d * (a + A)) * (a + B) :=
      mul_le_mul hF2a hF2b (by positivity) (by positivity)
    have h573 : 1.00573 * ((a * d + A) * (a * d + B)) ≤ d * (a + A) * (a + B) := by
      nlinarith [hm, hden2.le]
    calc 1.00573 * (a * (B - A)) * ((a * d + A) * (a * d + B))
        = a * (B - A) * (1.00573 * ((a * d + A) * (a * d + B))) := by ring
      _ ≤ a * (B - A) * (d * (a + A) * (a + B)) :=
          mul_le_mul_of_nonneg_left h573 (mul_nonneg hapos.le hBA.le)
      _ = a * d * (B - A) * ((a + A) * (a + B)) := by ring
  have hθr : 1.005347 * θ ≤ θ + 0.008 := by nlinarith
  have hpr : 0.98722 * (4 - θ) ^ 4 ≤ (4 - (θ + 0.008)) ^ 4 := by
    have hb : (0:ℝ) ≤ 0.996805 * (4 - θ) := by nlinarith
    have hbase : 0.996805 * (4 - θ) ≤ 4 - (θ + 0.008) := by nlinarith
    have h4 := pow_le_pow_left hb hbase 4
    calc 0.98722 * (4 - θ) ^ 4 ≤ 0.996805 ^ 4 * (4 - θ) ^ 4 := by
          nlinarith [pow_nonneg h4θpos.le 4]
      _ = (0.996805 * (4 - θ)) ^ 4 := by rw [mul_pow]
      _ ≤ (4 - (θ + 0.008)) ^ 4 := h4
  -- assemble
  have hP1pos : (0:ℝ) < a / (a + B) := by positivity
  have hP2pos : (0:ℝ) < a * (B - A) / ((a + A) * (a + B)) :=
    div_pos (mul_pos hapos hBA) (by positivity)
  have hP1pos' : (0:ℝ) < a * d / (a * d + B) := by positivity
  have hP2pos' : (0:ℝ) < a * d * (B - A) / ((a * d + A) * (a * d + B)) :=
    div_pos (mul_pos (mul_pos hapos hdpos) hBA) (by positivity)
  have hm1 : (1.00735 * (a / (a + B))) * (1.00573 * (a * (B - A) / ((a + A) * (a + B)))) ≤
      (a * d / (a * d + B)) * (a * d * (B - A) / ((a * d + A) * (a * d + B))) :=
    mul_le_mul hF1 hF2 (mul_nonneg (by norm_num) hP2pos.le) hP1pos'.le
  have hm2 := mul_le_mul hm1 hθr (mul_nonneg (by norm_num) hθpos.le)
    (mul_pos hP1pos' hP2pos').le
  have hm3 := mul_le_mul hm2 hpr (mul_nonneg (by norm_num) (pow_nonneg h4θpos.le 4))
    (mul_nonneg (mul_pos hP1pos' hP2pos').le (by linarith : (0:ℝ) ≤ θ + 0.008))
  have hKP : a / (a + B) * (a * (B - A) / ((a + A) * (a + B))) * θ * (4 - θ) ^ 4 <
      (1.00735 * (a / (a + B))) * (1.00573 * (a * (B - A) / ((a + A) * (a + B))))
        * (1.005347 * θ) * (0.98722 * (4 - θ) ^ 4) := by
    have hPpos : (0:ℝ) <
        a / (a + B) * (a * (B - A) / ((a + A) * (a + B))) * θ * (4 - θ) ^ 4 :=
      mul_pos (mul_pos (mul_pos hP1pos hP2pos) hθpos) (pow_pos h4θpos 4)
    nlinarith [hPpos]
  exact lt_of_lt_of_le hKP hm3

set_option maxHeartbeats 1000000 in
lemma c9_step1 (θ : ℝ) (h1 : 0.008 ≤ θ) (h2 : θ ≤ 1.496) :
    lpReal [⟨4, 4⟩, ⟨3, 4⟩] 5 0 4 θ < lpReal [⟨4, 4⟩, ⟨3, 4⟩] 5 0 4 (θ + 0.008) := by
  have hLL : ∀ t : ℝ, logLikelihood t [⟨4, 4⟩, ⟨3, 4⟩] =
      Real.log (max (itemLikelihood t ⟨4, 4⟩) epsilonFloor)
        + Real.log (max (itemLikelihood t ⟨3, 4⟩) epsilonFloor) := by
    intro t
    rw [logLikelihood_eq_sum]
    simp
  have hm1 : max (itemLikelihood θ ⟨4, 4⟩) epsilonFloor = itemLikelihood θ ⟨4, 4⟩ :=
    max_eq_left (c9_fl_top θ (by linarith))
  have hm2 : max (itemLikelihood θ ⟨3, 4⟩) epsilonFloor = itemLikelihood θ ⟨3, 4⟩ :=
    max_eq_left (c9_fl_mid34 θ (by linarith) (by linarith))
  have hm1' : max (itemLikelihood (θ + 0.008) ⟨4, 4⟩) epsilonFloor
      = itemLikelihood (θ + 0.008) ⟨4, 4⟩ :=
    max_eq_left (c9_fl_top _ (by linarith))
  have hm2' : max (itemLikelihood (θ + 0.008) ⟨3, 4⟩) epsilonFloor
      = itemLikelihood (θ + 0.008) ⟨3, 4⟩ :=
    max_eq_left (c9_fl_mid34 _ (by linarith) (by linarith))
  unfold lpReal
  rw [hLL θ, hLL (θ + 0.008), hm1, hm2, hm1', hm2',
    itemLikelihood_top_form θ 4 4 rfl, itemLikelihood_top_form (θ + 0.008) 4 4 rfl,
    itemLikelihood_mid_form θ 3 4 (by norm_num),
    itemLikelihood_mid_form (θ + 0.008) 3 4 (by norm_num),
    show (3:ℝ) + 1 = 4 by norm_num]
  rw [sub_zero, sub_zero, sub_zero, show ((5:ℝ) - 1) = 4 by norm_num]
  have hBA : (0:ℝ) < Real.exp 4 - Real.exp 3 := by
    have := Real.exp_lt_exp (x := (3:ℝ)) (y := 4)
    linarith [this.mpr (by norm_num)]
  have hθpos : (0:ℝ) < θ := by linarith
  have h4θpos : (0:ℝ) < 4 - θ := by linarith
  have hθpos' : (0:ℝ) < θ + 0.008 := by linarith
  have h4θpos' : (0:ℝ) < 4 - (θ + 0.008) := by linarith
  have hp1 : (0:ℝ) < Real.exp θ / (Real.exp θ + Real.exp 4) := by positivity
  have hp2 : (0:ℝ) < Real.exp θ * (Real.exp 4 - Real.exp 3)
      / ((Real.exp θ + Real.exp 3) * (Real.exp θ + Real.exp 4)) :=
    div_pos (mul_pos (Real.exp_pos θ) hBA) (by positivity)
  have hp1' : (0:ℝ) < Real.exp (θ + 0.008) / (Real.exp (θ + 0.008) + Real.exp 4) := by
    positivity
  have hp2' : (0:ℝ) < Real.exp (θ + 0.008) * (Real.exp 4 - Real.exp 3)
      / ((Real.exp (θ + 0.008) + Real.exp 3) * (Real.exp (θ + 0.008) + Real.exp 4)) :=
    div_pos (mul_pos (Real.exp_pos _) hBA) (by positivity)
  have e1 := c9_logcomb _ _ _ _ hp1 hp2 hθpos h4θpos
  have e2 := c9_logcomb _ _ _ _ hp1' hp2' hθpos' h4θpos'
  have hPpos : (0:ℝ) < Real.exp θ / (Real.exp θ + Real.exp 4)
      * (Real.exp θ * (Real.exp 4 - Real.exp 3)
          / ((Real.exp θ + Real.exp 3) * (Real.exp θ + Real.exp 4)))
      * θ * (4 - θ) ^ 4 :=
    mul_pos (mul_pos (mul_pos hp1 hp2) hθpos) (pow_pos h4θpos 4)
  have key := Real.log_lt_log hPpos (c9_prod1 θ h1 h2)
  rw [← e1, ← e2] at key
  linarith

set_option maxHeartbeats 1000000 in
lemma c9_prod2 (θ : ℝ) (h1 : 1.992 ≤ θ) (h2 : θ ≤ 3.984) :
    Real.exp (θ + 0.008) * (Real.exp 1 - 1)
      / ((Real.exp (θ + 0.008) + 1) * (Real.exp (θ + 0.008) + Real.exp 1))
      * (Real.exp (θ + 0.008) * (Real.exp 2 - Real.exp 1)
          / ((Real.exp (θ + 0.008) + Real.exp 1) * (Real.exp (θ + 0.008) + Real.exp 2)))
      * (θ + 0.008) * (4 - (θ + 0.008)) ^ 4
    < Real.exp θ * (Real.exp 1 - 1) / ((Real.exp θ + 1) * (Real.exp θ + Real.exp 1))
      * (Real.exp θ * (Real.exp 2 - Real.exp 1)
          / ((Real.exp θ + Real.exp 1) * (Real.exp θ + Real.exp 2)))
      * θ * (4 - θ) ^ 4 := by
  rw [Real.exp_add]
  set a := Real.exp θ with ha
  set d := Real.exp 0.008 with hd
  set E1 := Real.exp 1 with hE1
  set E2 := Real.exp 2 with hE2
  obtain ⟨hd1, hd2⟩ := c9_d_bounds
  have hE1a : (2.7182818283:ℝ) ≤ E1 := Real.exp_one_gt_d9.le
  have hE1b : E1 ≤ 2.7182818286 := Real.exp_one_lt_d9.le
  obtain ⟨hE2a, hE2b⟩ := c9_exp2_bounds
  have hapos : (0:ℝ) < a := Real.exp_pos θ
  have hdpos : (0:ℝ) < d := Real.exp_pos _
  have ha1 : (7.11:ℝ) ≤ a := by
    rw [ha]
    exact le_trans c9_exp1992_lb (Real.exp_le_exp.mpr h1)
  have had : (7.16:ℝ) ≤ a * d := by
    nlinarith [mul_le_mul ha1 hd1 (by norm_num : (0:ℝ) ≤ 1.008) hapos.le]
  have hE1m1 : (0:ℝ) < E1 - 1 := by linarith
  have hE21 : (0:ℝ) < E2 - E1 := by linarith
  have hθpos : (0:ℝ) < θ := by linarith
  have h4θpos : (0:ℝ) < 4 - θ := by linarith
  have h4θpos' : (0:ℝ) < 4 - (θ + 0.008) := by linarith
  -- per-constant denominator factors
  have hG1 : d * (a + 1) ≤ 1.0011 * (a * d + 1) := by
    have hkey : d - 1.0011 ≤ 0.0011 * (a * d) := by nlinarith [had]
    nlinarith [hkey]
  have hG1b : a + E1 ≤ a * d + E1 := by
    nlinarith [mul_nonneg hapos.le (show (0:ℝ) ≤ d - 1 by linarith)]
  have hG2 : d * (a + E1) ≤ 1.0025 * (a * d + E1) := by
    have hkey : E1 * (d - 1.0025) ≤ 0.0025 * (a * d) := by
      nlinarith [had, mul_le_mul hE1b hd2 hdpos.le (by norm_num : (0:ℝ) ≤ 2.7182818286)]
    nlinarith [hkey]
  have hG2b : a + E2 ≤ a * d + E2 := by
    nlinarith [mul_nonneg hapos.le (show (0:ℝ) ≤ d - 1 by linarith)]
  -- ratio bounds for the two item likelihoods
  have hH1 : a * d * (E1 - 1) / ((a * d + 1) * (a * d + E1)) ≤
      1.0011 * (a * (E1 - 1) / ((a + 1) * (a + E1))) := by
    have hden1 : (0:ℝ) < (a * d + 1) * (a * d + E1) := by positivity
    have hden2 : (0:ℝ) < (a + 1) * (a + E1) := by positivity
    rw [← mul_div_assoc, div_le_div_iff hden1 hden2]
    have hmul : (d * (a + 1)) * (a + E1) ≤ (1.0011 * (a * d + 1)) * (a * d + E1) :=
      mul_le_mul hG1 hG1b (by positivity) (by positivity)
    calc a * d * (E1 - 1) * ((a + 1) * (a + E1))
        = a * (E1 - 1) * ((d * (a + 1)) * (a + E1)) := by ring
      _ ≤ a * (E1 - 1) * ((1.0011 * (a * d + 1)) * (a * d + E1)) :=
          mul_le_mul_of_nonneg_left hmul (mul_nonneg hapos.le hE1m1.le)
      _ = 1.0011 * (a * (E1 - 1)) * ((a * d + 1) * (a * d + E1)) := by ring
  have hH2 : a * d * (E2 - E1) / ((a * d + E1) * (a * d + E2)) ≤
      1.0025 * (a * (E2 - E1) / ((a + E1) * (a + E2))) := by
    have hden1 : (0:ℝ) < (a * d + E1) * (a * d + E2) := by positivity
    have hden2 : (0:ℝ) < (a + E1) * (a + E2) := by positivity
    rw [← mul_div_assoc, div_le_div_iff hden1 hden2]
    have hmul : (d * (a + E1)) * (a + E2) ≤ (1.0025 * (a * d + E1)) * (a * d + E2) :=
      mul_le_mul hG2 hG2b (by positivity) (by positivity)
    calc a * d * (E2 - E1) * ((a + E1) * (a + E2))
        = a * (E2 - E1) * ((d * (a + E1)) * (a + E2)) := by ring
      _ ≤ a * (E2 - E1) * ((1.0025 * (a * d + E1)) * (a * d + E2)) :=
          mul_le_mul_of_nonneg_left hmul (mul_nonneg hapos.le hE21.le)
      _ = 1.0025 * (a * (E2 - E1)) * ((a * d + E1) * (a * d + E2)) := by ring
  have hθr : θ + 0.008 ≤ 1.00402 * θ := by nlinarith
  have hpr : (4 - (θ + 0.008)) ^ 4 ≤ 0.98416 * (4 - θ) ^ 4 := by
    have hbase : 4 - (θ + 0.008) ≤ 0.996016 * (4 - θ) := by nlinarith
    have h4 := pow_le_pow_left h4θpos'.le hbase 4
    calc (4 - (θ + 0.008)) ^ 4 ≤ (0.996016 * (4 - θ)) ^ 4 := h4
      _ = 0.996016 ^ 4 * (4 - θ) ^ 4 := by rw [mul_pow]
      _ ≤ 0.98416 * (4 - θ) ^ 4 := by nlinarith [pow_nonneg h4θpos.le 4]
  -- assemble
  have hP1pos : (0:ℝ) < a * (E1 - 1) / ((a + 1) * (a + E1)) :=
    div_pos (mul_pos hapos hE1m1) (by positivity)
  have hP2pos : (0:ℝ) < a * (E2 - E1) / ((a + E1) * (a + E2)) :=
    div_pos (mul_pos hapos hE21) (by positivity)
  have hP1pos' : (0:ℝ) < a * d * (E1 - 1) / ((a * d + 1) * (a * d + E1)) :=
    div_pos (mul_pos (mul_pos hapos hdpos) hE1m1) (by positivity)
  have hP2pos' : (0:ℝ) < a * d * (E2 - E1) / ((a * d + E1) * (a * d + E2)) :=
    div_pos (mul_pos (mul_pos hapos hdpos) hE21) (by positivity)
  have hm1 : (a * d * (E1 - 1) / ((a * d + 1) * (a * d + E1)))
        * (a * d * (E2 - E1) / ((a * d + E1) * (a * d + E2))) ≤
      (1.0011 * (a * (E1 - 1) / ((a + 1) * (a + E1))))
        * (1.0025 * (a * (E2 - E1) / ((a + E1) * (a + E2)))) :=
    mul_le_mul hH1 hH2 hP2pos'.le (mul_nonneg (by norm_num) hP1pos.le)
  have hm2 := mul_le_mul hm1 hθr (by linarith : (0:ℝ) ≤ θ + 0.008)
    (mul_nonneg (mul_nonneg (by norm_num) hP1pos.le)
      (mul_nonneg (by norm_num) hP2pos.le))
  have hm3 := mul_le_mul hm2 hpr (pow_nonneg h4θpos'.le 4)
    (mul_nonneg (mul_nonneg (mul_nonneg (by norm_num) hP1pos.le)
      (mul_nonneg (by norm_num) hP2pos.le)) (mul_nonneg (by norm_num) hθpos.le))
  have hKP : (1.0011 * (a * (E1 - 1) / ((a + 1) * (a + E1))))
        * (1.0025 * (a * (E2 - E1) / ((a + E1) * (a + E2))))
        * (1.00402 * θ) * (0.98416 * (4 - θ) ^ 4) <
      a * (E1 - 1) / ((a + 1) * (a + E1))
        * (a * (E2 - E1) / ((a + E1) * (a + E2))) * θ * (4 - θ) ^ 4 := by
    have hPpos : (0:ℝ) < a * (E1 - 1) / ((a + 1) * (a + E1))
        * (a * (E2 - E1) / ((a + E1) * (a + E2))) * θ * (4 - θ) ^ 4 :=
      mul_pos (mul_pos (mul_pos hP1pos hP2pos) hθpos) (pow_pos h4θpos 4)
    nlinarith [hPpos]
  exact lt_of_le_of_lt hm3 hKP

set_option maxHeartbeats 1000000 in
lemma c9_step2 (θ : ℝ) (h1 : 1.992 ≤ θ) (h2 : θ ≤ 3.984) :
    lpReal [⟨0, 4⟩, ⟨1, 4⟩] 5 0 4 (θ + 0.008) < lpReal [⟨0, 4⟩, ⟨1, 4⟩] 5 0 4 θ := by
  have hLL : ∀ t : ℝ, logLikelihood t [⟨0, 4⟩, ⟨1, 4⟩] =
      Real.log (max (itemLikelihood t ⟨0, 4⟩) epsilonFloor)
        + Real.log (max (itemLikelihood t ⟨1, 4⟩) epsilonFloor) := by
    intro t
    rw [logLikelihood_eq_sum]
    simp
  have hm1 : max (itemLikelihood θ ⟨0, 4⟩) epsilonFloor = itemLikelihood θ ⟨0, 4⟩ :=
    max_eq_left (c9_fl_mid04 θ (by linarith) (by linarith))
  have hm2 : max (itemLikelihood θ ⟨1, 4⟩) epsilonFloor = itemLikelihood θ ⟨1, 4⟩ :=
    max_eq_left (c9_fl_mid14 θ (by linarith) (by linarith))
  have hm1' : max (itemLikelihood (θ + 0.008) ⟨0, 4⟩) epsilonFloor
      = itemLikelihood (θ + 0.008) ⟨0, 4⟩ :=
    max_eq_left (c9_fl_mid04 _ (by linarith) (by linarith))
  have hm2' : max (itemLikelihood (θ + 0.008) ⟨1, 4⟩) epsilonFloor
      = itemLikelihood (θ + 0.008) ⟨1, 4⟩ :=
    max_eq_left (c9_fl_mid14 _ (by linarith) (by linarith))
  unfold lpReal
  rw [hLL θ, hLL (θ + 0.008), hm1, hm2, hm1', hm2',
    itemLikelihood_mid_form θ 0 4 (by norm_num),
    itemLikelihood_mid_form (θ + 0.008) 0 4 (by norm_num),
    itemLikelihood_mid_form θ 1 4 (by norm_num),
    itemLikelihood_mid_form (θ + 0.008) 1 4 (by norm_num),
    show (0:ℝ) + 1 = 1 by norm_num, show (1:ℝ) + 1 = 2 by norm_num, Real.exp_zero]
  rw [sub_zero, sub_zero, sub_zero, show ((5:ℝ) - 1) = 4 by norm_num]
  have hE1m1 : (0:ℝ) < Real.exp 1 - 1 := by
    have := Real.exp_one_gt_d9
    linarith
  have hE21 : (0:ℝ) < Real.exp 2 - Real.exp 1 := by
    have := Real.exp_lt_exp (x := (1:ℝ)) (y := 2)
    linarith [this.mpr (by norm_num)]
  have hθpos : (0:ℝ) < θ := by linarith
  have h4θpos : (0:ℝ) < 4 - θ := by linarith
  have hθpos' : (0:ℝ) < θ + 0.008 := by linarith
  have h4θpos' : (0:ℝ) < 4 - (θ + 0.008) := by linarith
  have hp1 : (0:ℝ) < Real.exp θ * (Real.exp 1 - 1)
      / ((Real.exp θ + 1) * (Real.exp θ + Real.exp 1)) :=
    div_pos (mul_pos (Real.exp_pos θ) hE1m1) (by positivity)
  have hp2 : (0:ℝ) < Real.exp θ * (Real.exp 2 - Real.exp 1)
      / ((Real.exp θ + Real.exp 1) * (Real.exp θ + Real.exp 2)) :=
    div_pos (mul_pos (Real.exp_pos θ) hE21) (by positivity)
  have hp1' : (0:ℝ) < Real.exp (θ + 0.008) * (Real.exp 1 - 1)
      / ((Real.exp (θ + 0.008) + 1) * (Real.exp (θ + 0.008) + Real.exp 1)) :=
    div_pos (mul_pos (Real.exp_pos _) hE1m1) (by positivity)
  have hp2' : (0:ℝ) < Real.exp (θ + 0.008) * (Real.exp 2 - Real.exp 1)
      / ((Real.exp (θ + 0.008) + Real.exp 1) * (Real.exp (θ + 0.008) + Real.exp 2)) :=
    div_pos (mul_pos (Real.exp_pos _) hE21) (by positivity)
  have e1 := c9_logcomb _ _ _ _ hp1 hp2 hθpos h4θpos
  have e2 := c9_logcomb _ _ _ _ hp1' hp2' hθpos' h4θpos'
  have hPpos' : (0:ℝ) < Real.exp (θ + 0.008) * (Real.exp 1 - 1)
      / ((Real.exp (θ + 0.008) + 1) * (Real.exp (θ + 0.008) + Real.exp 1))
      * (Real.exp (θ + 0.008) * (Real.exp 2 - Real.exp 1)
          / ((Real.exp (θ + 0.008) + Real.exp 1) * (Real.exp (θ + 0.008) + Real.exp 2)))
      * (θ + 0.008) * (4 - (θ + 0.008)) ^ 4 :=
    mul_pos (mul_pos (mul_pos hp1' hp2') hθpos') (pow_pos h4θpos' 4)
  have key := Real.log_lt_log hPpos' (c9_prod2 θ h1 h2)
  rw [← e1, ← e2] at key
  linarith

lemma c9_best1 :
    1.5 < (estimateAbilityByGridSearchMAP [⟨4, 4⟩, ⟨3, 4⟩] 2 5 0 4 500).bestAbility := by
  rw [estimate_bestAbility [⟨4, 4⟩, ⟨3, 4⟩] 2 5 0 4 500 (by simp)]
  have hmemN : ∀ i : ℕ, 1 ≤ i → i ≤ 499 →
      (logPosterior (gridPoint 0 4 500 i) [⟨4, 4⟩, ⟨3, 4⟩] 2 5 0 4, i)
        ∈ gridValidIndices [⟨4, 4⟩, ⟨3, 4⟩] 2 5 0 4 500 := by
    intro i hi1 hi2
    apply gridValidIndices_mem_of (by omega)
    rw [isFiniteE_logPosterior_iff, c9_grid]
    have hc1 : (1:ℝ) ≤ (i:ℝ) := by exact_mod_cast hi1
    have hc2 : (i:ℝ) ≤ 499 := by exact_mod_cast hi2
    constructor
    · nlinarith
    · nlinarith
  rcases hr : reduceMax (gridValidIndices [⟨4, 4⟩, ⟨3, 4⟩] 2 5 0 4 500) with _ | m
  · exfalso
    have hnil := (reduceMax_eq_none_iff _).mp hr
    have hm := hmemN 1 le_rfl (by omega)
    rw [hnil] at hm
    exact absurd hm (List.not_mem_nil _)
  · obtain ⟨hm500, hmval, hmfin⟩ := mem_gridValidIndices (reduceMax_mem _ _ hr)
    rw [hmval] at hmfin
    have hint := (isFiniteE_logPosterior_iff _ _ _ _ _ _).mp hmfin
    have hm1 : 1 ≤ m.2 := by
      by_contra hc
      push_neg at hc
      have h0 : m.2 = 0 := by omega
      rw [h0, gridPoint_zero] at hint
      exact lt_irrefl _ hint.1
    have hm499 : m.2 ≤ 499 := by
      by_contra hc
      push_neg at hc
      have h5 : m.2 = 500 := by omega
      rw [h5, gridPoint_last 0 4 500 (by norm_num)] at hint
      exact lt_irrefl _ hint.2
    have h188 : 188 ≤ m.2 := by
      by_contra hc
      push_neg at hc
      have hj187 : m.2 ≤ 187 := by omega
      have hcl : (1:ℝ) ≤ (m.2:ℝ) := by exact_mod_cast hm1
      have hch : ((m.2:ℕ):ℝ) ≤ 187 := by exact_mod_cast hj187
      have hθlo : (0.008:ℝ) ≤ gridPoint 0 4 500 m.2 := by
        rw [c9_grid]
        nlinarith
      have hθhi : gridPoint 0 4 500 m.2 ≤ 1.496 := by
        rw [c9_grid]
        nlinarith
      have hstep := c9_step1 (gridPoint 0 4 500 m.2) hθlo hθhi
      have hnext : gridPoint 0 4 500 (m.2 + 1) = gridPoint 0 4 500 m.2 + 0.008 := by
        rw [c9_grid, c9_grid]
        push_cast
        ring
      rw [← hnext] at hstep
      have hmem1 := hmemN (m.2 + 1) (by omega) (by omega)
      have hle := reduceMax_le _ _ hr _ hmem1
      rw [hmval] at hle
      have hintn : (0:ℝ) < gridPoint 0 4 500 (m.2 + 1)
          ∧ gridPoint 0 4 500 (m.2 + 1) < 4 := by
        rw [c9_grid]
        push_cast
        constructor
        · nlinarith
        · nlinarith
      rw [logPosterior_coe_of_interior _ _ _ _ _ _ hintn.1 hintn.2,
          logPosterior_coe_of_interior _ _ _ _ _ _ hint.1 hint.2] at hle
      have hlr := EReal.coe_le_coe_iff.mp hle
      linarith
    show (1.5:ℝ) < gridPoint 0 4 500 m.2
    rw [c9_grid]
    have hcf : (188:ℝ) ≤ (m.2:ℝ) := by exact_mod_cast h188
    nlinarith

lemma c9_best2 :
    (estimateAbilityByGridSearchMAP [⟨0, 4⟩, ⟨1, 4⟩] 2 5 0 4 500).bestAbility < 2.0 := by
  rw [estimate_bestAbility [⟨0, 4⟩, ⟨1, 4⟩] 2 5 0 4 500 (by simp)]
  have hmemN : ∀ i : ℕ, 1 ≤ i → i ≤ 499 →
      (logPosterior (gridPoint 0 4 500 i) [⟨0, 4⟩, ⟨1, 4⟩] 2 5 0 4, i)
        ∈ gridValidIndices [⟨0, 4⟩, ⟨1, 4⟩] 2 5 0 4 500 := by
    intro i hi1 hi2
    apply gridValidIndices_mem_of (by omega)
    rw [isFiniteE_logPosterior_iff, c9_grid]
    have hc1 : (1:ℝ) ≤ (i:ℝ) := by exact_mod_cast hi1
    have hc2 : (i:ℝ) ≤ 499 := by exact_mod_cast hi2
    constructor
    · nlinarith
    · nlinarith
  rcases hr : reduceMax (gridValidIndices [⟨0, 4⟩, ⟨1, 4⟩] 2 5 0 4 500) with _ | m
  · norm_num
  · obtain ⟨hm500, hmval, hmfin⟩ := mem_gridValidIndices (reduceMax_mem _ _ hr)
    rw [hmval] at hmfin
    have hint := (isFiniteE_logPosterior_iff _ _ _ _ _ _).mp hmfin
    have hm1 : 1 ≤ m.2 := by
      by_contra hc
      push_neg at hc
      have h0 : m.2 = 0 := by omega
      rw [h0, gridPoint_zero] at hint
      exact lt_irrefl _ hint.1
    have hm499 : m.2 ≤ 499 := by
      by_contra hc
      push_neg at hc
      have h5 : m.2 = 500 := by omega
      rw [h5, gridPoint_last 0 4 500 (by norm_num)] at hint
      exact lt_irrefl _ hint.2
    have h249 : m.2 ≤ 249 := by
      by_contra hc
      push_neg at hc
      have h250 : 250 ≤ m.2 := hc
      have hcast : ((m.2 - 1 : ℕ):ℝ) = (m.2:ℝ) - 1 := by
        rw [Nat.cast_sub (by omega : 1 ≤ m.2)]
        norm_num
      have hcj : (250:ℝ) ≤ (m.2:ℝ) := by exact_mod_cast h250
      have hcj2 : (m.2:ℝ) ≤ 499 := by exact_mod_cast hm499
      have hθlo : (1.992:ℝ) ≤ gridPoint 0 4 500 (m.2 - 1) := by
        rw [c9_grid, hcast]
        nlinarith
      have hθhi : gridPoint 0 4 500 (m.2 - 1) ≤ 3.984 := by
        rw [c9_grid, hcast]
        nlinarith
      have hstep := c9_step2 (gridPoint 0 4 500 (m.2 - 1)) hθlo hθhi
      have hnext : gridPoint 0 4 500 m.2 = gridPoint 0 4 500 (m.2 - 1) + 0.008 := by
        rw [c9_grid, c9_grid, hcast]
        ring
      rw [← hnext] at hstep
      have hmem1 := hmemN (m.2 - 1) (by omega) (by omega)
      have hle := reduceMax_le _ _ hr _ hmem1
      rw [hmval] at hle
      have hintn : (0:ℝ) < gridPoint 0 4 500 (m.2 - 1)
          ∧ gridPoint 0 4 500 (m.2 - 1) < 4 := by
        constructor
        · linarith
        · linarith
      rw [logPosterior_coe_of_interior _ _ _ _ _ _ hintn.1 hintn.2,
          logPosterior_coe_of_interior _ _ _ _ _ _ hint.1 hint.2] at hle
      have hlr := EReal.coe_le_coe_iff.mp hle
      linarith
    show gridPoint 0 4 500 m.2 < 2.0
    rw [c9_grid]
    have hcf : (m.2:ℝ) ≤ 249 := by exact_mod_cast h249
    nlinarith

/-- C9.  With `ALPHA = 2`, `BETA_PARAM = 5`, `xMin = 0`, `xMax = 4` and the
default `gridPoints = 500`, the MAP estimate for the two evaluations
`{level: 4, predictedMaxScore: 4}` and `{level: 3, predictedMaxScore: 4}` is
strictly greater than 1.5, and for `{level: 0, predictedMaxScore: 4}` and
`{level: 1, predictedMaxScore: 4}` strictly less than 2.0. -/
theorem c9_example_scenarios :
    1.5 < (estimateAbilityByGridSearchMAP [⟨4, 4⟩, ⟨3, 4⟩] 2 5 0 4 500).bestAbility ∧
    (estimateAbilityByGridSearchMAP [⟨0, 4⟩, ⟨1, 4⟩] 2 5 0 4 500).bestAbility < 2.0 :=
  ⟨c9_best1, c9_best2⟩

end

end ContributorAnalyze
